import Mathlib

/-!
Shallow embedding of the telegram-parsing / region-resolution core of the
bvs-analytics repository (backend/parsers/flight_parser.py,
backend/parsers/telegram_parser.py, backend/app/utils/phone_normalizer.py).

Python floats are modelled as exact rationals (ℚ); the decoded coordinate
values produced by the source are small dyadic/decimal-exact quantities for
which binary floating point and exact rational arithmetic round identically
(see the comments at pyRound).  Python `None` / absent values are modelled
with Option, raised exceptions with Except.
-/

/- Batteries marks the `Rat` field arithmetic `@[irreducible]`; restoring
the default reducibility lets concrete runs of the embedded parsers be
settled by kernel evaluation (`decide`). -/
set_option allowUnsafeReducibility true
attribute [semireducible] Rat.mul Rat.inv Rat.add Rat.sub Rat.ofScientific

deriving instance DecidableEq for Except

set_option maxRecDepth 4096

namespace BVS

/-- ASCII decimal digit, the `\d` class of the source regexes.  Python `\d`
also admits non-ASCII decimal digits; the source treats those identically
(they flow through `int`), so restricting the embedding to ASCII digits does
not affect any claim. -/
def isPyDigit (c : Char) : Bool := '0' ≤ c && c ≤ '9'

/-- Whitespace as recognised by Python `str.strip` / regex `\s`
(ASCII fragment: space, tab, newline, carriage return, vertical tab,
form feed). -/
def isPyWs (c : Char) : Bool :=
  c = ' ' || c = '\t' || c = '\n' || c = '\r' || c = '\x0b' || c = '\x0c'

/-- Python `str.upper` on the alphabets the parsers can meet:
ASCII letters and the Cyrillic range а-я (U+0430..U+044F) plus ё. -/
def pyUpper (c : Char) : Char :=
  if 'a' ≤ c ∧ c ≤ 'z' then Char.ofNat (c.toNat - 32)
  else if 'а' ≤ c ∧ c ≤ 'я' then Char.ofNat (c.toNat - 32)
  else if c = 'ё' then 'Ё'
  else c

/-- `FlightParser.RU2EN`: translate table mapping Cyrillic С/Ю/В/З (and the
lowercase forms, kept here exactly as in the source although `upper` runs
first) to N/S/E/W. -/
def ru2en (c : Char) : Char :=
  if c = 'С' then 'N' else if c = 'Ю' then 'S'
  else if c = 'В' then 'E' else if c = 'З' then 'W'
  else if c = 'с' then 'N' else if c = 'ю' then 'S'
  else if c = 'в' then 'E' else if c = 'з' then 'W'
  else c

/-- Python `str.strip()` (no argument): drop whitespace from both ends. -/
def pyStrip (cs : List Char) : List Char :=
  ((cs.dropWhile isPyWs).reverse.dropWhile isPyWs).reverse

/-- Python `str.rstrip("/")`: drop every trailing '/'. -/
def pyRstripSlash (cs : List Char) : List Char :=
  (cs.reverse.dropWhile fun c => c = '/').reverse

/-- Numeric value of a list of ASCII digits (the `int(...)` of the source,
applied only to strings the regexes have certified to be digit runs). -/
def digitsToNat (cs : List Char) : Nat :=
  cs.foldl (fun acc c => acc * 10 + (c.toNat - 48)) 0

/-- Floor of a rational, executable (`q.num.fdiv q.den`). -/
def qfloor (q : ℚ) : ℤ := q.num.fdiv q.den

/-- Round a rational to the nearest integer, ties to even — the rounding
performed by Python's `round` and float formatting.  The source only ever
rounds values whose scaled fractional part is a multiple of 1/9 (degree
arithmetic), so ties never arise there and the tie-breaking rule is
immaterial; it is included for fidelity. -/
def roundHalfEven (q : ℚ) : ℤ :=
  let f := qfloor q
  let r := q - f
  if r < 1/2 then f
  else if (1:ℚ)/2 < r then f + 1
  else if f % 2 = 0 then f else f + 1

/-- Python `round(x, 6)` on the exact rational model.  For every value the
source rounds (of the form `(k : ℤ)/3600` with `|k| ≤ 648000·3600`) the
binary float computed by Python lies strictly inside the same rounding cell,
so the exact-rational result equals the float result. -/
def pyRound6 (q : ℚ) : ℚ := (roundHalfEven (q * 1000000) : ℚ) / 1000000

/-- A Python value reaching a parser entry point: a string or some
non-string object (None, pandas NaN, ...).  The parsers only ever
distinguish "is a string" from "is not". -/
inductive PyVal where
  | str (s : String)
  | nonstr
deriving DecidableEq

/-- A parsed-block value: a single string, or the ordered list kept when a
key occurred several times (`parse_block` collapses singletons). -/
inductive BVal where
  | s (v : String)
  | l (vs : List String)
deriving DecidableEq

/-- Python truthiness of a block value (empty string and empty list are
falsy). -/
def BVal.truthy : BVal → Bool
  | .s v => v ≠ ""
  | .l vs => vs ≠ []

/-- Truthiness of an optional block value (`None` is falsy). -/
def btruthy : Option BVal → Bool
  | none => false
  | some v => v.truthy

/-- Python `a or b` on optional block values: keep `a` when truthy. -/
def pyOr (a b : Option BVal) : Option BVal := if btruthy a then a else b

/-! ### A small backtracking regex engine

The zone/operator extraction of the source uses `re.search` with patterns
whose alternation and greedy-repetition semantics matter (leftmost match,
first-alternative priority, greedy bounded repetition with backtracking).
The engine below implements exactly those semantics: `alt` prefers its left
branch, `star` is greedy with backtracking, captures record the last
completed span of their group.  Each source pattern is transcribed into an
`RE` value literally. -/

/-- Regex abstract syntax.  `cls` is a character class, `alt` prefers the
left alternative (the order alternatives appear in the pattern), `star` is
greedy, `group i` captures group number `i`. -/
inductive RE where
  | eps
  | cls (p : Char → Bool)
  | seq (a b : RE)
  | alt (a b : RE)
  | star (a : RE)
  | group (i : Nat) (a : RE)

/-- Group captures: group number to captured span; later writes win. -/
abbrev Caps := List (Nat × List Char)

def setCap (caps : Caps) (i : Nat) (v : List Char) : Caps :=
  (i, v) :: (caps : List (Nat × List Char)).filter fun c => c.1 ≠ i

def getCap (caps : Caps) (i : Nat) : Option (List Char) :=
  ((caps : List (Nat × List Char)).find? fun c => c.1 = i).map fun c => c.2

/-- Backtracking matcher in continuation-passing style.  `fuel` bounds the
recursion depth; the wrappers below always supply
`(size + 2) * (length + 2)` fuel, which exceeds the deepest possible
backtracking stack for these patterns (every star iteration must consume at
least one character, mirroring the Python engine's empty-match rule). -/
def mrun : Nat → RE → List Char → Caps → (List Char → Caps → Option (Caps × List Char)) →
    Option (Caps × List Char)
  | 0, _, _, _, _ => none
  | fuel + 1, r, s, caps, k =>
    match r with
    | .eps => k s caps
    | .cls p =>
      match s with
      | [] => none
      | c :: rest => if p c then k rest caps else none
    | .seq a b => mrun fuel a s caps fun s2 c2 => mrun fuel b s2 c2 k
    | .alt a b => (mrun fuel a s caps k).orElse fun _ => mrun fuel b s caps k
    | .star a =>
      (mrun fuel a s caps fun s2 c2 =>
        if s2.length < s.length then mrun fuel (.star a) s2 c2 k else none).orElse
        fun _ => k s caps
    | .group i a =>
      mrun fuel a s caps fun s2 c2 => k s2 (setCap c2 i (s.take (s.length - s2.length)))

def RE.size : RE → Nat
  | .eps => 1
  | .cls _ => 1
  | .seq a b => a.size + b.size + 1
  | .alt a b => a.size + b.size + 1
  | .star a => a.size + 1
  | .group _ a => a.size + 1

/-- Match the pattern at the start of `s` (like `re.match` without
anchors): returns captures and the remaining suffix. -/
def matchAt (r : RE) (s : List Char) : Option (Caps × List Char) :=
  mrun ((r.size + 2) * (s.length + 2)) r s ([] : List (Nat × List Char))
    fun s2 caps => some (caps, s2)

/-- `re.search`: try each position left to right, returning the leftmost
match — `(captures, matched span, suffix after the match)`. -/
def reSearch (r : RE) : List Char → Option (Caps × List Char × List Char)
  | [] => (matchAt r []).map fun pr => (pr.1, ([] : List Char), pr.2)
  | c :: t =>
    match matchAt r (c :: t) with
    | some (caps, rest) =>
      some (caps, (c :: t).take ((c :: t).length - rest.length), rest)
    | none => reSearch r t

/-- `re.findall` for a groupless pattern: non-overlapping leftmost matches.
The progress guard mirrors the Python scanner's advance rule; every pattern
used with it consumes at least one character per match. -/
def reFindAllAux : Nat → RE → List Char → List (List Char)
  | 0, _, _ => []
  | fuel + 1, r, s =>
    match reSearch r s with
    | none => []
    | some (_, matched, rest) =>
      matched :: (if rest.length < s.length then reFindAllAux fuel r rest else [])

def reFindAll (r : RE) (s : List Char) : List (List Char) :=
  reFindAllAux (s.length + 1) r s

/-- Literal string. -/
def RE.lit (s : String) : RE :=
  s.toList.foldr (fun c acc => .seq (.cls fun x => x = c) acc) .eps

/-- Case-insensitive literal over ASCII letters (`re.IGNORECASE`). -/
def RE.litCI (s : String) : RE :=
  s.toList.foldr
    (fun c acc => .seq (.cls fun x => x = c ∨ x = Char.ofNat (c.toNat + 32)) acc) .eps

def RE.chr (c : Char) : RE := .cls fun x => x = c

def RE.opt (a : RE) : RE := .alt a .eps

def RE.plus (a : RE) : RE := .seq a (.star a)

/-- Exactly `n` copies. -/
def RE.rep : Nat → RE → RE
  | 0, _ => .eps
  | n + 1, a => .seq a (RE.rep n a)

/-- A calendar date (the `datetime.date` produced by the parsers). -/
structure Date where
  year : Nat
  month : Nat
  day : Nat
deriving DecidableEq

/-- Gregorian leap-year rule, as implemented by `datetime`. -/
def isLeapYear (y : Nat) : Bool :=
  y % 4 = 0 && (y % 100 ≠ 0 || y % 400 = 0)

/-- Days in a month of the proleptic Gregorian calendar. -/
def daysInMonth (y m : Nat) : Nat :=
  if m = 2 then (if isLeapYear y then 29 else 28)
  else if m = 4 ∨ m = 6 ∨ m = 9 ∨ m = 11 then 30
  else 31

/-- The triple is accepted by the `datetime` constructor (`ValueError`
otherwise). -/
def validYMD (y m d : Nat) : Bool :=
  1 ≤ y && y ≤ 9999 && 1 ≤ m && m ≤ 12 && 1 ≤ d && d ≤ daysInMonth y m

/-- One entry of a zone definition's `zones` list (ltsa.json): a dict with
optional `type`, `center` (a `[lat, lon]` list) and `coordinates` (a list
of `[lat, lon]` lists) keys, read with `.get` and defaults. -/
structure SubZone where
  type : Option String
  center : Option (List ℚ)
  coordinates : Option (List (List ℚ))
deriving DecidableEq

/-- One record of the zone-definitions dataset (ltsa.json): optional
`rvmname` designator and optional `zones` list. -/
structure ZoneDef where
  rvmname : Option String
  zones : Option (List SubZone)
deriving DecidableEq

/-- A `{'lat': …, 'lon': …}` dict as stored in a polygon zone's
coordinate list. -/
structure PCoord where
  lat : Option ℚ
  lon : Option ℚ
deriving DecidableEq

/-- The `{'type': …, 'data': …}` dicts produced by
`FlightParser.parse_zone`.  A circle's centre coordinates are the two
components of a `parse_latlon` result and may be `None`; a `named` zone
carries its `zones` list only when the designator was found in the
dataset. -/
inductive Zone where
  | circle (clat clon : Option ℚ) (radius_nm : ℚ)
  | polygon (coordinates : List PCoord)
  | named (name : String) (zones : Option (List SubZone))
  | unknown
deriving DecidableEq

/-- The dict returned by the region locator's `get_region`: the feature's
`cartodb_id` and region name, as consumed by `parse_row`. -/
structure Region where
  cartodb_id : ℤ
  region : String
deriving DecidableEq

namespace FlightParser

/-- One `(\d{4}|\d{6})` / `(\d{5}|\d{7})` alternative of the anchored
coordinate regex: exactly `n` leading digits. -/
def grabDigits (n : Nat) (cs : List Char) : Option (List Char × List Char) :=
  let pre := cs.take n
  if pre.length = n ∧ pre.all isPyDigit then some (pre, cs.drop n) else none

/-- One alternative `latLen` digits, `[NS]`, `lonLen` digits, `[EW]`, end of
string, of `^(\d{4}|\d{6})([NS])(\d{5}|\d{7})([EW])$`. -/
def latlonAlt (latLen lonLen : Nat) (cs : List Char) :
    Option (List Char × Char × List Char × Char) := do
  let (latStr, rest) ← grabDigits latLen cs
  match rest with
  | ns :: rest2 =>
    if ns = 'N' ∨ ns = 'S' then do
      let (lonStr, rest3) ← grabDigits lonLen rest2
      match rest3 with
      | [ew] => if ew = 'E' ∨ ew = 'W' then some (latStr, ns, lonStr, ew) else none
      | _ => none
    else none
  | [] => none

/-- `re.match(r'^(\d{4}|\d{6})([NS])(\d{5}|\d{7})([EW])$', s)`, with the
regex engine's alternative order (shorter digit run tried first; the `$`
anchor makes the outcome deterministic). -/
def latlonMatch (cs : List Char) : Option (List Char × Char × List Char × Char) :=
  (latlonAlt 4 5 cs).orElse fun _ =>
    (latlonAlt 4 7 cs).orElse fun _ =>
      (latlonAlt 6 5 cs).orElse fun _ => latlonAlt 6 7 cs

/-- Degrees from a 4/6-digit latitude group: `DD`, `MM`, optional `SS`
(`dd + mm/60 + ss/3600`). -/
def latValue (latStr : List Char) : ℚ :=
  let dd := digitsToNat (latStr.take 2)
  let mm := digitsToNat ((latStr.drop 2).take 2)
  let ss := digitsToNat ((latStr.drop 4).take 2)
  (dd : ℚ) + (mm : ℚ) / 60 + (ss : ℚ) / 3600

/-- Degrees from a 5/7-digit longitude group: `DDD`, `MM`, optional `SS`. -/
def lonValue (lonStr : List Char) : ℚ :=
  let ddd := digitsToNat (lonStr.take 3)
  let mm := digitsToNat ((lonStr.drop 3).take 2)
  let ss := digitsToNat ((lonStr.drop 5).take 2)
  (ddd : ℚ) + (mm : ℚ) / 60 + (ss : ℚ) / 3600

/-- `FlightParser.parse_latlon`.  The Python function returns the pair
`(None, None)` on every failure and `(lat, lon)` on success; that pair is
modelled as `Option (ℚ × ℚ)`.  The `try/except` around the arithmetic can
never fire (the regex certifies the `int` arguments), so it has no
counterpart here. -/
def parse_latlon (compact : PyVal) : Option (ℚ × ℚ) :=
  match compact with
  | .nonstr => none
  | .str s =>
    let cs := ((pyStrip s.toList).map pyUpper).map ru2en
    match latlonMatch cs with
    | none => none
    | some (latStr, ns, lonStr, ew) =>
      let lat0 := latValue latStr
      let lat := if ns = 'S' then -lat0 else lat0
      let lon0 := lonValue lonStr
      let lon := if ew = 'W' then -lon0 else lon0
      if -90 ≤ lat ∧ lat ≤ 90 ∧ -180 ≤ lon ∧ lon ≤ 180 then
        some (pyRound6 lat, pyRound6 lon)
      else none

/-- `FlightParser.parse_date_yymmdd`.  The argument is a value taken from a
parsed block (`None`, a string, or a list of strings).  `if not s` rejects
`None` and falsy values; `str(s)` of a list renders with brackets and
quotes and therefore never satisfies `fullmatch(r"\d{6}")`, so list values
map to absent.  Invalid calendar triples raise `ValueError` inside
`datetime`, caught and turned into `None`. -/
def parse_date_yymmdd (s : Option BVal) : Option Date :=
  match s with
  | none => none
  | some bv =>
    if bv.truthy = false then none
    else
      match bv with
      | .l _ => none
      | .s v =>
        let t := pyStrip v.toList
        if t.length = 6 ∧ t.all isPyDigit then
          let yy := digitsToNat (t.take 2)
          let mm := digitsToNat ((t.drop 2).take 2)
          let dd := digitsToNat ((t.drop 4).take 2)
          if validYMD (2000 + yy) mm dd then some ⟨2000 + yy, mm, dd⟩ else none
        else none

/-- `FlightParser.parse_time_hhmm`.  `if s is None` lets the empty string
through, but it then fails `fullmatch(r"\d{4}")`; the `isinstance(s, int)`
branch is unreachable from `parse_row` (block values are strings or lists)
and list values never render as four digits. -/
def parse_time_hhmm (s : Option BVal) : Option (Nat × Nat) :=
  match s with
  | none => none
  | some (.l _) => none
  | some (.s v) =>
    let t := pyStrip v.toList
    if t.length = 4 ∧ t.all isPyDigit then
      let hh := digitsToNat (t.take 2)
      let mm := digitsToNat ((t.drop 2).take 2)
      if hh > 23 ∨ mm > 59 then none else some (hh, mm)
    else none

/-- Python `str.splitlines` restricted to `\n`/`\r`.  A `\r\n` pair yields
one extra empty line here (Python treats it as a single separator), and the
final line is always emitted even when empty; both differences are
invisible to `parse_block`, which skips blank lines. -/
def splitLinesPy : List Char → List Char → List (List Char)
  | [], acc => [acc.reverse]
  | c :: rest, acc =>
    if c = '\n' ∨ c = '\r' then acc.reverse :: splitLinesPy rest []
    else splitLinesPy rest (c :: acc)

/-- The `[A-Z0-9]+` class of the dash-line regex under `re.I`. -/
def isKeyChar (c : Char) : Bool :=
  ('A' ≤ c && c ≤ 'Z') || ('a' ≤ c && c ≤ 'z') || isPyDigit c

/-- `re.match(r"^-([A-Z0-9]+)\s*(.*)$", line, re.I)` followed by
`m.group(1).upper()` and `m.group(2).strip()`. -/
def dashParse (line : List Char) : Option (String × String) :=
  match line with
  | c :: rest =>
    if c = '-' then
      let key := rest.takeWhile isKeyChar
      if key = [] then none
      else
        let tail := (rest.drop key.length).dropWhile isPyWs
        some (String.mk (key.map pyUpper), String.mk (pyStrip tail))
    else none
  | [] => none

/-- `re.split(r"\s+", line)` on a stripped line: whitespace-separated
tokens (no empty tokens arise because the line is stripped and nonempty). -/
def splitWsAux : List Char → List Char → List (List Char)
  | [], acc => if acc.isEmpty then [] else [acc.reverse]
  | c :: rest, acc =>
    if isPyWs c then
      if acc.isEmpty then splitWsAux rest [] else acc.reverse :: splitWsAux rest []
    else splitWsAux rest (c :: acc)

def splitWs (l : List Char) : List (List Char) := splitWsAux l []

/-- `v.strip().rstrip("/")` applied to the value part of a `KEY/value`
token. -/
def tokenValue (v : List Char) : String := String.mk (pyRstripSlash (pyStrip v))

/-- The `KEY/value` arm of the line loop: for each whitespace-separated
token containing `/`, split at the first `/`, uppercase the key and stash
the stripped value. -/
def tokenPairs (line : List Char) : List (String × String) :=
  (splitWs line).filterMap fun tok =>
    if '/' ∈ tok then
      some (String.mk ((tok.takeWhile fun c => c ≠ '/').map pyUpper),
        tokenValue ((tok.dropWhile fun c => c ≠ '/').tail))
    else none

/-- One iteration of the line loop of `parse_block`:  blank lines are
skipped; a line whose dash-pattern matches contributes that single pair and
nothing else (`continue`); any other line goes through the `KEY/value`
token scan. -/
def linePairs (raw : List Char) : List (String × String) :=
  let line := pyStrip raw
  if line.isEmpty then []
  else
    match dashParse line with
    | some kv => [kv]
    | none => tokenPairs line

/-- The ordered `(key, value)` stream `parse_block` feeds into its
`defaultdict`: strip, drop one pair of wrapping parentheses, then scan the
lines. -/
def blockPairs (text : PyVal) : List (String × String) :=
  match text with
  | .nonstr => []
  | .str s =>
    let t0 := pyStrip s.toList
    if t0.isEmpty then []
    else
      let t := if t0.head? = some '(' ∧ t0.getLast? = some ')' then
        (t0.drop 1).dropLast else t0
      ((splitLinesPy t []).map linePairs).flatten

/-- Keys in order of first occurrence — the iteration order of the
`defaultdict`. -/
def keysOf : List (String × String) → List String
  | [] => []
  | (k, _) :: rest => k :: (keysOf rest).filter fun x => x ≠ k

/-- All values recorded for `k`, in input order. -/
def valuesFor (pairs : List (String × String)) (k : String) : List String :=
  (pairs.filter fun kv => kv.1 = k).map fun kv => kv.2

/-- `v[0] if len(v) == 1 else v`. -/
def collapse (vs : List String) : BVal :=
  match vs with
  | [v] => .s v
  | vs => .l vs

/-- `FlightParser.parse_block`: the defaultdict grouped by key, singleton
lists collapsed to their only element. -/
def parse_block (text : PyVal) : List (String × BVal) :=
  (keysOf (blockPairs text)).map fun k => (k, collapse (valuesFor (blockPairs text) k))

/-- `dict.get(key)` on a parsed block. -/
def dget (blk : List (String × BVal)) (k : String) : Option BVal :=
  (blk.find? fun kv => kv.1 = k).map fun kv => kv.2

/-! #### The three zone recognizers of `parse_zone` -/

def reDigit : RE := .cls isPyDigit

def reWsp : RE := .cls isPyWs

/-- `(\d{4}|\d{6})([NS])(\d{5}|\d{7})([EW])` with capture groups `g`..`g+3`
(case-sensitive classes, as in the circle pattern). -/
def coordRE (g : Nat) : RE :=
  .seq (.group g (.alt (RE.rep 4 reDigit) (RE.rep 6 reDigit)))
    (.seq (.group (g + 1) (.cls fun c => c = 'N' ∨ c = 'S'))
      (.seq (.group (g + 2) (.alt (RE.rep 5 reDigit) (RE.rep 7 reDigit)))
        (.group (g + 3) (.cls fun c => c = 'E' ∨ c = 'W'))))

/-- `/ZONA (ZONA )?(R\d+,?\d+)\s?((\d{4}|\d{6})([NS])(\d{5}|\d{7})([EW]))/` -/
def circlePat : RE :=
  .seq (RE.chr '/') (.seq (RE.lit "ZONA ")
    (.seq (RE.opt (.group 1 (RE.lit "ZONA ")))
      (.seq (.group 2 (.seq (RE.chr 'R')
          (.seq (RE.plus reDigit) (.seq (RE.opt (RE.chr ',')) (RE.plus reDigit)))))
        (.seq (RE.opt reWsp) (.seq (.group 3 (coordRE 4)) (RE.chr '/'))))))

/-- `\d{4,6}` / `\d{5,7}`: greedy bounded repetition, longest first. -/
def reD46 : RE := .alt (RE.rep 6 reDigit) (.alt (RE.rep 5 reDigit) (RE.rep 4 reDigit))

def reD57 : RE := .alt (RE.rep 7 reDigit) (.alt (RE.rep 6 reDigit) (RE.rep 5 reDigit))

/-- `ZONA\s+((?:\d{4,6}[NS]\d{5,7}[EW]\s*)+)` with `re.IGNORECASE`
(`re.MULTILINE` only affects anchors, of which there are none). -/
def polyPat : RE :=
  .seq (RE.litCI "ZONA") (.seq (RE.plus reWsp)
    (.group 1 (RE.plus
      (.seq reD46 (.seq (.cls fun c => c = 'N' ∨ c = 'S' ∨ c = 'n' ∨ c = 's')
        (.seq reD57 (.seq (.cls fun c => c = 'E' ∨ c = 'W' ∨ c = 'e' ∨ c = 'w')
          (.star reWsp))))))))

/-- `\d{4,6}[NS]\d{5,7}[EW]` — the `re.findall` pattern of the polygon
branch (no flags: case-sensitive). -/
def findCoordPat : RE :=
  .seq reD46 (.seq (.cls fun c => c = 'N' ∨ c = 'S')
    (.seq reD57 (.cls fun c => c = 'E' ∨ c = 'W')))

/-- `/ZONA\s+([A-Z]+\s*\d+[A-Z]*)\s*/` with `re.IGNORECASE`. -/
def namedPat : RE :=
  .seq (RE.chr '/') (.seq (RE.litCI "ZONA") (.seq (RE.plus reWsp)
    (.seq (.group 1 (.seq (RE.plus (.cls fun c => ('A' ≤ c ∧ c ≤ 'Z') ∨ ('a' ≤ c ∧ c ≤ 'z')))
        (.seq (.star reWsp) (.seq (RE.plus reDigit)
          (.star (.cls fun c => ('A' ≤ c ∧ c ≤ 'Z') ∨ ('a' ≤ c ∧ c ≤ 'z')))))))
      (.seq (.star reWsp) (RE.chr '/')))))

/-- `float(group(2).replace('R', '').replace(',', '.'))`: the group has the
shape `R\d+(,\d+)?`, so this is an exact decimal.  (Python's `float` yields
the nearest binary double; the exact rational stands for it.) -/
def parseRadius (g : List Char) : ℚ :=
  let g1 := g.filter fun c => c ≠ 'R'
  let intPart := g1.takeWhile fun c => c ≠ ','
  match g1.dropWhile fun c => c ≠ ',' with
  | [] => (digitsToNat intPart : ℚ)
  | _ :: frac => (digitsToNat intPart : ℚ) + (digitsToNat frac : ℚ) / ((10 : ℚ) ^ frac.length)

/-- `re.sub(r'\s+', ' ', text)`: collapse every whitespace run to a single
space. -/
def collapseWsAux : List Char → Bool → List Char
  | [], _ => []
  | c :: rest, prevWs =>
    if isPyWs c then
      if prevWs then collapseWsAux rest true else ' ' :: collapseWsAux rest true
    else c :: collapseWsAux rest false

def collapseWs (l : List Char) : List Char := collapseWsAux l false

/-- Python `str.split(' ')`: split at every single space (empty pieces
kept, as in Python). -/
def splitOnSpace : List Char → List Char → List (List Char)
  | [], acc => [acc.reverse]
  | c :: rest, acc =>
    if c = ' ' then acc.reverse :: splitOnSpace rest [] else splitOnSpace rest (c :: acc)

/-- The circle recognizer: `re.search` of `circlePat`. -/
def circleMatch (cs : List Char) : Option (Caps × List Char × List Char) :=
  reSearch circlePat cs

/-- The polygon recognizer: group 1 of the polygon pattern, whitespace
collapsed and stripped, split into coordinate tokens (on single spaces if
any, else by `re.findall`), each decoded by `parse_latlon`, failures
skipped.  Both "pattern did not match" and "no token decoded" yield `[]`,
and in both cases `parse_zone` falls through to the named recognizer. -/
def polygonCoords (cs : List Char) : List PCoord :=
  match reSearch polyPat cs with
  | none => []
  | some (caps, _, _) =>
    let coordsText := pyStrip (collapseWs ((getCap caps 1).getD []))
    let coordStrings :=
      if ' ' ∈ coordsText then splitOnSpace coordsText []
      else reFindAll findCoordPat coordsText
    coordStrings.filterMap fun z =>
      (parse_latlon (.str (String.mk z))).map fun la => PCoord.mk (some la.1) (some la.2)

/-- The zone designator captured by the named pattern. -/
def namedName (caps : Caps) : String := String.mk (pyStrip ((getCap caps 1).getD []))

/-- The named recognizer, including the dataset lookup
(`next((z for z in zones if z.get('rvmname') == name), None)`). -/
def zoneNamed (zones : List ZoneDef) (cs : List Char) : Zone :=
  match reSearch namedPat cs with
  | none => .unknown
  | some (caps, _, _) =>
    let zone_name := namedName caps
    match zones.find? fun z => z.rvmname = some zone_name with
    | some zd => .named zone_name (some (zd.zones.getD []))
    | none => .named zone_name none

/-- `FlightParser.parse_zone`: the recognizers in priority order — circle,
polygon (skipped when no coordinate decodes), named, else `unknown`.
`round_zone.group(3)` is never empty on a circle match, so the
`and round_zone.group(3)` guard of the source is vacuous. -/
def parse_zone (zones : List ZoneDef) (shr_text : PyVal) : Zone :=
  match shr_text with
  | .nonstr => .unknown
  | .str s =>
    let cs := s.toList
    match circleMatch cs with
    | some (caps, _, _) =>
      let radius := parseRadius ((getCap caps 2).getD [])
      match parse_latlon (.str (String.mk ((getCap caps 3).getD []))) with
      | some (zlat, zlon) => .circle (some zlat) (some zlon) radius
      | none => .circle none none radius
    | none =>
      let coords := polygonCoords cs
      if coords ≠ [] then .polygon coords
      else zoneNamed zones cs

/-! #### Region resolution -/

/-- The 8 search directions of `_search_region_in_vicinity`, in source
order. -/
def directions : List (ℤ × ℤ) :=
  [(1, 1), (1, -1), (-1, 1), (-1, -1), (1, 0), (-1, 0), (0, 1), (0, -1)]

/-- The radius schedule `[0.01, 0.05, 0.1, 0.15, 0.2, 0.25, 0.5, 1, 2, 3,
5]` as exact decimals (the Python float literals denote the nearest
doubles; `locate` is abstract here, so the infinitesimal difference is
unobservable). -/
def deltas : List ℚ :=
  [1/100, 1/20, 1/10, 3/20, 1/5, 1/4, 1/2, 1, 2, 3, 5]

/-- Python truthiness of an optional number: `None`, `0` and `0.0` are
falsy. -/
def qtruthy : Option ℚ → Bool
  | none => false
  | some q => q ≠ 0

/-- The anchor selection of `_search_region_in_vicinity`: the departure
coordinate if both components are truthy, else the arrival coordinate, else
nothing. -/
def anchorOf (dep_lat dep_lon arr_lat arr_lon : Option ℚ) : Option (ℚ × ℚ) :=
  if qtruthy dep_lat ∧ qtruthy dep_lon then some (dep_lat.getD 0, dep_lon.getD 0)
  else if qtruthy arr_lat ∧ qtruthy arr_lon then some (arr_lat.getD 0, arr_lon.getD 0)
  else none

/-- The inner direction loop: probe the 8 compass offsets at one radius,
returning the first region found. -/
def searchDirs (locate : ℚ → ℚ → Option Region) (lat lon δ : ℚ) :
    List (ℤ × ℤ) → Option Region
  | [] => none
  | d :: rest =>
    match locate (lat + d.1 * δ) (lon + d.2 * δ) with
    | some r => some r
    | none => searchDirs locate lat lon δ rest

/-- The outer radius loop. -/
def searchDeltas (locate : ℚ → ℚ → Option Region) (lat lon : ℚ) :
    List ℚ → Option Region
  | [] => none
  | δ :: rest =>
    match searchDirs locate lat lon δ directions with
    | some r => some r
    | none => searchDeltas locate lat lon rest

/-- `FlightParser._search_region_in_vicinity`. -/
def search_region_in_vicinity (locOpt : Option (ℚ → ℚ → Option Region))
    (dep_lat dep_lon arr_lat arr_lon : Option ℚ) : Option Region :=
  match locOpt with
  | none => none
  | some locate =>
    match anchorOf dep_lat dep_lon arr_lat arr_lon with
    | none => none
    | some (lat, lon) => searchDeltas locate lat lon deltas

/-- Claim-side probe sequence: "for each radius taken from the increasing
schedule …, the 8 compass-direction offsets of the anchor point", written
from the claim's words for comparison with the source's nested loops. -/
def probeList (lat lon : ℚ) : List (ℚ × ℚ) :=
  (deltas.map fun δ => directions.map fun d => (lat + d.1 * δ, lon + d.2 * δ)).flatten

/-- `FlightParser.get_flight_region`, reading the departure/arrival
coordinates and zone of an assembled flight record. -/
def get_flight_region (locOpt : Option (ℚ → ℚ → Option Region))
    (dep_lat dep_lon arr_lat arr_lon : Option ℚ) (zone : Zone) : Option Region :=
  match locOpt with
  | none => none
  | some locate =>
    let r1 := if qtruthy dep_lat ∧ qtruthy dep_lon then
      locate (dep_lat.getD 0) (dep_lon.getD 0) else none
    let r2 := match r1 with
      | some r => some r
      | none =>
        if qtruthy arr_lat ∧ qtruthy arr_lon then
          locate (arr_lat.getD 0) (arr_lon.getD 0) else none
    let r3 := match r2 with
      | some r => some r
      | none =>
        match zone with
        | .polygon coords =>
          coords.findSome? fun c =>
            if c.lat.isSome ∧ c.lon.isSome then locate (c.lat.getD 0) (c.lon.getD 0)
            else none
        | .circle clat clon _ =>
          if clat.isSome ∧ clon.isSome then locate (clat.getD 0) (clon.getD 0) else none
        | .named _ subz =>
          (subz.getD []).findSome? fun z =>
            if z.type = some "circle" then
              match z.center.getD [] with
              | [c0, c1] => locate c0 c1
              | _ => none
            else if z.type = some "polygon" then
              match z.coordinates.getD [[]] with
              | [] => none
              | fc :: _ =>
                if fc.length > 0 then
                  match fc with
                  | [a, b] => locate a b
                  | _ => none
                else none
            else none
        | .unknown => none
    match r3 with
    | some r => some r
    | none => search_region_in_vicinity locOpt dep_lat dep_lon arr_lat arr_lon

/-- The character class of `parse_operator`'s group 1:
`[A-Z|a-z|A-Я|а-я|0-9|\n|\ |+|-]` — note the third range runs from Latin
`A` (U+0041) to Cyrillic `Я` (U+042F) and subsumes the first. -/
def opChar (c : Char) : Bool :=
  ('A' ≤ c && c ≤ 'Z') || ('a' ≤ c && c ≤ 'z') ||
    ('A' ≤ c && c ≤ 'Я') || ('а' ≤ c && c ≤ 'я') ||
    isPyDigit c || c = '|' || c = '\n' || c = ' ' || c = '+' || c = '-'

/-- Python `\w` restricted to the alphabets of the corpus: ASCII word
characters plus Cyrillic letters. -/
def wordChar (c : Char) : Bool :=
  ('A' ≤ c && c ≤ 'Z') || ('a' ≤ c && c ≤ 'z') || isPyDigit c || c = '_' ||
    ('А' ≤ c && c ≤ 'я') || c = 'Ё' || c = 'ё'

/-- `OPR\/([A-Z|a-z|A-Я|а-я|0-9|\n|\ |+|-]+)(\ \w+\/)` -/
def oprPat : RE :=
  .seq (RE.lit "OPR/") (.seq (.group 1 (RE.plus (.cls opChar)))
    (.group 2 (.seq (RE.chr ' ') (.seq (RE.plus (.cls wordChar)) (RE.chr '/')))))

/-- `FlightParser.parse_operator`: `re.search` the operator pattern, then
`group(1).replace('\n', ' ')`. -/
def parse_operator (shr_text : String) : Option String :=
  match reSearch oprPat shr_text.toList with
  | none => none
  | some (caps, _, _) =>
    some (String.mk (((getCap caps 1).getD []).map fun c => if c = '\n' then ' ' else c))

/-! #### parse_row -/

/-- Days before month `m` in year `y`. -/
def daysBeforeMonth (y : Nat) : Nat → Nat
  | 0 => 0
  | 1 => 0
  | m + 1 => daysBeforeMonth y m + daysInMonth y m

/-- `datetime._days_before_year`: days between year 1 and year `y`
(CPython's own formula). -/
def daysBeforeYear (y : Nat) : Nat :=
  (y - 1) * 365 + (y - 1) / 4 - (y - 1) / 100 + (y - 1) / 400

/-- The ordinal of a date (`datetime.toordinal` minus one); only
differences of these matter, as in `datetime` subtraction. -/
def dayNumber (d : Date) : Nat :=
  daysBeforeYear d.year + daysBeforeMonth d.year d.month + (d.day - 1)

/-- A `datetime` as minutes since day 0 (its `isoformat` rendering is a
bijective encoding of this value for the dates in range). -/
def tsMinutes (d : Date) (hm : Nat × Nat) : Nat :=
  dayNumber d * 1440 + hm.1 * 60 + hm.2

/-- `f"{h:02d}{m:02d}"`. -/
def pad2 (n : Nat) : List Char :=
  if n < 10 then '0' :: Nat.toDigits 10 n else Nat.toDigits 10 n

def timeStr (hm : Nat × Nat) : String := String.mk (pad2 hm.1 ++ pad2 hm.2)

/-- `f"{q:0W.2f}"` for a nonnegative rational: round to 2 decimals
(half-even; Python formats the nearest binary double, which agrees except
on exact decimal ties — and no claim observes those digits), then zero-pad
to width `w`.  The result always contains a `.`. -/
def format2dec (w : Nat) (q : ℚ) : List Char :=
  let n := (roundHalfEven (q * 100)).toNat
  let body := Nat.toDigits 10 (n / 100)
    ++ '.' :: [Char.ofNat (48 + n % 100 / 10), Char.ofNat (48 + n % 100 % 10)]
  List.replicate (w - body.length) '0' ++ body

/-- The zone-fallback locator key synthesized inline in `parse_row`:
`f"{abs(lat):06.2f}{'N' if lat >= 0 else 'S'}{abs(lon):07.2f}{'E' if lon >= 0 else 'W'}"`. -/
def encodeZoneKey (lat lon : ℚ) : String :=
  String.mk (format2dec 6 (if lat < 0 then -lat else lat)
    ++ (if 0 ≤ lat then 'N' else 'S')
    :: (format2dec 7 (if lon < 0 then -lon else lon)
    ++ [if 0 ≤ lon then 'E' else 'W']))

/-- `((\d{4}|\d{6})([NSСЮсю])(\d{5}|\d{7})([EWВЗвз]))` — the coordinate
scan applied to the `ADEPZ`/`ADARRZ` fields. -/
def rowCoordPat : RE :=
  .group 1 (.seq (.group 2 (.alt (RE.rep 4 reDigit) (RE.rep 6 reDigit)))
    (.seq (.group 3 (.cls fun c =>
        c = 'N' ∨ c = 'S' ∨ c = 'С' ∨ c = 'Ю' ∨ c = 'с' ∨ c = 'ю'))
      (.seq (.group 4 (.alt (RE.rep 5 reDigit) (RE.rep 7 reDigit)))
        (.group 5 (.cls fun c =>
          c = 'E' ∨ c = 'W' ∨ c = 'В' ∨ c = 'З' ∨ c = 'в' ∨ c = 'з')))))

/-- `DEP\/((\d{4}|\d{6})([NS])(\d{5}|\d{7})([EW]))` (`re.MULTILINE` has no
effect: no anchors). -/
def depPat : RE := .seq (RE.lit "DEP/") (.group 1 (coordRE 2))

def destPat : RE := .seq (RE.lit "DEST/") (.group 1 (coordRE 2))

/-- `ВЗЛЕТ И ПОСАДКА\s+((\d{4}|\d{6})([NS])(\d{5}|\d{7})([EW]))`. -/
def proizvolPat : RE :=
  .seq (RE.lit "ВЗЛЕТ И ПОСАДКА") (.seq (RE.plus reWsp) (.group 1 (coordRE 2)))

/-- One reference entry of `aerodroms.json`: `{'title': …, 'coords':
[lat, lon]}`. -/
structure Aerodrome where
  title : Option String
  coords : List ℚ
deriving DecidableEq

/-- The dict `lookup_aerodrome` returns. -/
structure AeroInfo where
  code : String
  name : Option String
  lat : ℚ
  lon : ℚ
deriving DecidableEq

/-- `FlightParser.lookup_aerodrome`: `aerodrome['coords'][0]` raises
`IndexError`/`KeyError` on malformed reference data (modelled as
`.error`). -/
def lookup_aerodrome (aer : List (String × Aerodrome)) (code : String) :
    Except String (Option AeroInfo) :=
  if code = "" ∨ code = "ZZZZ" then .ok none
  else
    let c := String.mk ((pyStrip code.toList).map pyUpper)
    match aer.find? fun kv => kv.1 = c with
    | none => .ok none
    | some kv =>
      match kv.2.coords with
      | la :: lo :: _ => .ok (some ⟨c, kv.2.title, la, lo⟩)
      | _ => .error "IndexError: coords"

/-- `self.lookup_aerodrome(adep) if adep and adep != "ZZZZ" else None`: a
nonempty list value is truthy and unequal to `"ZZZZ"`, so it reaches
`code.strip()` and raises `AttributeError`. -/
def aeroFor (aer : List (String × Aerodrome)) (v : Option BVal) :
    Except String (Option AeroInfo) :=
  match v with
  | none => .ok none
  | some (.s c) => if c ≠ "" ∧ c ≠ "ZZZZ" then lookup_aerodrome aer c else .ok none
  | some (.l vs) =>
    if vs ≠ [] then .error "AttributeError: list has no attribute strip" else .ok none

/-- The `re.search(coord-pattern, field)` applied to a truthy
`ADEPZ`/`ADARRZ` value; a nonempty list raises `TypeError` inside
`re.search`, falsy values skip the scan and behave as absent downstream
(the empty string/list are falsy everywhere the variable is later used). -/
def coordFieldScan (v : Option BVal) : Except String (Option String) :=
  match v with
  | none => .ok none
  | some (.s t) =>
    if t = "" then .ok none
    else
      match reSearch rowCoordPat t.toList with
      | some (caps, _, _) => .ok (some (String.mk ((getCap caps 1).getD [])))
      | none => .ok none
  | some (.l vs) =>
    if vs = [] then .ok none else .error "TypeError: expected string or bytes-like object"

/-- The `dep`/`arr` sub-dicts of the flight record.  The Python dict stores
`date.isoformat()` and `f"{h:02d}{m:02d}"`; the date and the rendered time
string stand for them. -/
structure SideInfo where
  date : Option Date
  time_hhmm : Option String
  lat : Option ℚ
  lon : Option ℚ
  aerodrome_code : Option String
  aerodrome_name : Option String
deriving DecidableEq

/-- The flight record assembled by `parse_row`.  `start_ts`/`end_ts` are
minutes since day zero (the Python dict stores their `isoformat`
strings). -/
structure FlightData where
  sid : Option BVal
  center_name : Option String
  uav_type : Option BVal
  operator_name : Option BVal
  zone : Zone
  dep : SideInfo
  arr : SideInfo
  start_ts : Option Nat
  end_ts : Option Nat
  duration_min : Option ℤ
  region_id : Option ℤ
  region_name : String
deriving DecidableEq

/-- The zone-fallback step of `parse_row`: when either coordinate string is
still missing, synthesize one from the parsed zone via the inline key
`f"{abs(lat):06.2f}…"`.  `abs(None)` raises `TypeError` when a circle
center or first polygon vertex has an undecodable token. -/
def zoneFallback (az2 : Option String × Option String) (zona : Zone) :
    Except String (Option String × Option String) :=
  if az2.1 = none ∨ az2.2 = none then
    match zona with
    | .circle clat clon _ =>
      if az2.1 = none then
        match clat, clon with
        | some la, some lo =>
          let key := encodeZoneKey la lo
          pure (some key, if az2.2 = none then some key else az2.2)
        | _, _ => throw "TypeError: bad operand type for abs: NoneType"
      else pure (az2.1, if az2.2 = none then az2.1 else az2.2)
    | .polygon coords =>
      if az2.1 = none then
        match coords with
        | [] => pure (az2.1, if az2.2 = none then az2.1 else az2.2)
        | fc :: _ =>
          match fc.lat, fc.lon with
          | some la, some lo =>
            let key := encodeZoneKey la lo
            pure (some key, if az2.2 = none then some key else az2.2)
          | _, _ => throw "TypeError: bad operand type for abs: NoneType"
      else pure (az2.1, if az2.2 = none then az2.1 else az2.2)
    | _ => pure az2
  else pure az2

/-- `FlightParser.parse_row`.  Paths on which the Python code raises
(`TypeError` from `re.search`/`abs` on non-strings/None, `AttributeError`
from `.strip()` on a list, `IndexError` on malformed aerodrome data)
return `.error`. -/
def parse_row (aer : List (String × Aerodrome)) (zones : List ZoneDef)
    (locOpt : Option (ℚ → ℚ → Option Region)) (center_name : String)
    (shr_text dep_text arr_text : PyVal) : Except String FlightData := do
  let dep := parse_block dep_text
  let arr := parse_block arr_text
  let shr := parse_block shr_text
  let sid := pyOr (pyOr (dget dep "SID") (dget arr "SID")) (dget shr "SID")
  let uav_type := pyOr (pyOr (dget shr "TYP") (dget dep "TYP")) (dget arr "TYP")
  -- parse_operator(shr_text): re.search on a non-string raises TypeError
  let shrStr ← match shr_text with
    | .str s => pure s
    | .nonstr => throw "TypeError: expected string or bytes-like object"
  let operator0 := match parse_operator shrStr with
    | some o => some (BVal.s o)
    | none => dget shr "OPR"
  let dep_date := parse_date_yymmdd (dget dep "ADD")
  let arr_date := parse_date_yymmdd (dget arr "ADA")
  let dep_hm := parse_time_hhmm (dget dep "ATD")
  let arr_hm := parse_time_hhmm (dget arr "ATA")
  let start_ts := match dep_date, dep_hm with
    | some d, some t => some (tsMinutes d t)
    | _, _ => none
  let end_ts := match arr_date, arr_hm with
    | some d, some t =>
      match start_ts with
      | some s => if tsMinutes d t < s then some (tsMinutes d t + 1440) else some (tsMinutes d t)
      | none => some (tsMinutes d t)
    | _, _ => none
  let adarrz1 ← coordFieldScan (dget arr "ADARRZ")
  let adepz1 ← coordFieldScan (dget dep "ADEPZ")
  let az2 : Option String × Option String :=
    if adepz1 = none ∧ adarrz1 = none then
      let adepzA := match reSearch depPat shrStr.toList with
        | some (caps, _, _) => some (String.mk ((getCap caps 1).getD []))
        | none => none
      let adarrzA := match reSearch destPat shrStr.toList with
        | some (caps, _, _) => some (String.mk ((getCap caps 1).getD []))
        | none => none
      if adepzA = none ∨ adarrzA = none then
        match reSearch proizvolPat shrStr.toList with
        | some (caps, _, _) =>
          let p := some (String.mk ((getCap caps 1).getD []))
          (p, p)
        | none => (adepzA, adarrzA)
      else (adepzA, adarrzA)
    else (adepz1, adarrz1)
  let zona := parse_zone zones shr_text
  let az3 ← zoneFallback az2 zona
  let dep_aero ← aeroFor aer (dget dep "ADEP")
  let arr_aero ← aeroFor aer (dget arr "ADARR")
  let depI : Option ℚ × Option ℚ × Option String × Option String :=
    match dep_aero with
    | some a => (some a.lat, some a.lon, some a.code, a.name)
    | none =>
      match az3.1 with
      | some z =>
        match parse_latlon (.str z) with
        | some (la, lo) => (some la, some lo, none, none)
        | none => (none, none, none, none)
      | none => (none, none, none, none)
  let arrI : Option ℚ × Option ℚ × Option String × Option String :=
    match arr_aero with
    | some a => (some a.lat, some a.lon, some a.code, a.name)
    | none =>
      match az3.2 with
      | some z =>
        match parse_latlon (.str z) with
        | some (la, lo) => (some la, some lo, none, none)
        | none => (none, none, none, none)
      | none => (none, none, none, none)
  let duration : Option ℤ := match start_ts, end_ts with
    | some s, some e => some ((e : ℤ) - (s : ℤ))
    | _, _ => none
  let region := get_flight_region locOpt depI.1 depI.2.1 arrI.1 arrI.2.1 zona
  pure {
    sid := sid
    center_name := if center_name = "" then none else some center_name
    uav_type := uav_type
    operator_name := operator0
    zone := zona
    dep := ⟨dep_date, dep_hm.map timeStr, depI.1, depI.2.1, depI.2.2.1, depI.2.2.2⟩
    arr := ⟨arr_date, arr_hm.map timeStr, arrI.1, arrI.2.1, arrI.2.2.1, arrI.2.2.2⟩
    start_ts := start_ts
    end_ts := end_ts
    duration_min := duration
    region_id := region.map fun r => r.cartodb_id
    region_name := match region with
      | some r => r.region
      | none => "Не определено" }

end FlightParser

namespace TelegramParser

/-- `re.match(r'(\d{4,6})([NS])(\d{5,7})([EW])', s)` — the unanchored
prefix match of `TelegramParser.coord_pattern`.  The greedy bounded
repetitions are deterministic here: every shorter digit prefix is followed
by a further digit, which the `[NS]`/`[EW]` classes reject, so the only
viable latitude split takes the whole leading digit run (and fails when the
run is shorter than 4 or longer than 6; likewise 5..7 for the longitude).
Trailing characters after `[EW]` are permitted (no `$` anchor). -/
def coordMatch (cs : List Char) : Option (List Char × Char × List Char × Char) :=
  let latRun := cs.takeWhile isPyDigit
  if 4 ≤ latRun.length ∧ latRun.length ≤ 6 then
    match cs.drop latRun.length with
    | ns :: rest =>
      if ns = 'N' ∨ ns = 'S' then
        let lonRun := rest.takeWhile isPyDigit
        if 5 ≤ lonRun.length ∧ lonRun.length ≤ 7 then
          match rest.drop lonRun.length with
          | ew :: _ =>
            if ew = 'E' ∨ ew = 'W' then some (latRun, ns, lonRun, ew) else none
          | [] => none
        else none
      else none
    | [] => none
  else none

/-- `TelegramParser._parse_coordinates`: converts a coordinate string to
decimal degrees.  Unlike `FlightParser.parse_latlon` it RAISES `ValueError`
on a pattern mismatch (modelled as `.error`), performs no Cyrillic
normalization, no range check and no rounding. -/
def parse_coordinates (coord_str : String) : Except String (ℚ × ℚ) :=
  match coordMatch coord_str.toList with
  | none => .error ("Invalid coordinate format: " ++ coord_str)
  | some (latStr, latDir, lonStr, lonDir) =>
    let latAbs : Except String ℚ :=
      if latStr.length = 4 then
        .ok ((digitsToNat (latStr.take 2) : ℚ) + (digitsToNat ((latStr.drop 2).take 2) : ℚ) / 60)
      else if latStr.length = 6 then
        .ok ((digitsToNat (latStr.take 2) : ℚ) + (digitsToNat ((latStr.drop 2).take 2) : ℚ) / 60
          + (digitsToNat ((latStr.drop 4).take 2) : ℚ) / 3600)
      else .error ("Invalid latitude format: " ++ String.mk latStr)
    match latAbs with
    | .error e => .error e
    | .ok lat0 =>
      let lat := if latDir = 'S' then -lat0 else lat0
      let lonAbs : Except String ℚ :=
        if lonStr.length = 5 then
          .ok ((digitsToNat (lonStr.take 3) : ℚ) + (digitsToNat ((lonStr.drop 3).take 2) : ℚ) / 60)
        else if lonStr.length = 7 then
          .ok ((digitsToNat (lonStr.take 3) : ℚ) + (digitsToNat ((lonStr.drop 3).take 2) : ℚ) / 60
            + (digitsToNat ((lonStr.drop 5).take 2) : ℚ) / 3600)
        else .error ("Invalid longitude format: " ++ String.mk lonStr)
      match lonAbs with
      | .error e => .error e
      | .ok lon0 =>
        let lon := if lonDir = 'W' then -lon0 else lon0
        .ok (lat, lon)

/-- `TelegramParser._extract_date`: search `DOF/(\d{6})` in the message and
render `"20YY-MM-DD"` without any calendar validation.  The leftmost match
is found by scanning positions left to right; at each position the pattern
is the literal `DOF/` followed by six digits. -/
def extractDateMatch : List Char → Option (List Char)
  | [] => none
  | c :: rest =>
    let here : Option (List Char) :=
      match c :: rest with
      | 'D' :: 'O' :: 'F' :: '/' :: d1 :: d2 :: d3 :: d4 :: d5 :: d6 :: _ =>
        if [d1, d2, d3, d4, d5, d6].all isPyDigit then some [d1, d2, d3, d4, d5, d6]
        else none
      | _ => none
    here.orElse fun _ => extractDateMatch rest

/-- `TelegramParser._extract_date` proper: format the captured `YYMMDD` as
`"20" + YY + "-" + MM + "-" + DD`. -/
def extract_date (message : String) : Option String :=
  match extractDateMatch message.toList with
  | none => none
  | some ds =>
    some (String.mk ('2' :: '0' :: ds.take 2 ++ '-' :: (ds.drop 2).take 2
      ++ '-' :: (ds.drop 4).take 2))

/-- `TelegramParser.calculate_duration`.  The datetimes are modelled as
seconds (the function only subtracts them); `None` arguments are falsy, a
genuine datetime is always truthy.  `int(x / 60)` truncates toward zero. -/
def calculate_duration (departure_dt arrival_dt : Option ℤ) : ℤ :=
  match departure_dt, arrival_dt with
  | some d, some a =>
    let dur := a - d
    let dur2 := if dur < 0 then a + 86400 - d else dur
    dur2.tdiv 60
  | _, _ => 0

end TelegramParser

/-- `normalize_phone_number` (app/utils/phone_normalizer.py): strip all
non-digit characters, then dispatch on length/prefix.  Total by
construction; `None`, non-strings and the empty string are rejected by the
leading truthiness/isinstance test. -/
def normalize_phone_number (phone : PyVal) : Option String :=
  match phone with
  | .nonstr => none
  | .str p =>
    if p = "" then none
    else
      let digits_only := (pyStrip p.toList).filter isPyDigit
      if digits_only.length = 11 then
        if digits_only.head? = some '8' then some (String.mk ('7' :: digits_only.tail))
        else if digits_only.head? = some '7' then some (String.mk digits_only)
        else none
      else if digits_only.length = 10 then some (String.mk ('7' :: digits_only))
      else if digits_only.length = 12 ∧ digits_only.head? = some '7' then
        if digits_only.tail.head? = some '7' then some (String.mk digits_only.tail)
        else none
      else none

/-- Claim-side restatement of the phone-normalization rule, written from the
specification's words ("after stripping all non-digit characters it maps 11
digits starting with 8 to '7' plus the remaining 10 digits, 11 digits
starting with 7 to itself, 10 digits to '7' prepended, and 12 digits
starting with 77 to the string with one leading 7 dropped; every other
length or prefix yields absent"), to be compared with the source-side
`normalize_phone_number`. -/
def phoneSpec (phone : PyVal) : Option String :=
  match phone with
  | .nonstr => none
  | .str p =>
    let d := p.toList.filter isPyDigit
    if d.length = 11 ∧ d.head? = some '8' then some (String.mk ('7' :: d.tail))
    else if d.length = 11 ∧ d.head? = some '7' then some (String.mk d)
    else if d.length = 10 then some (String.mk ('7' :: d))
    else if d.length = 12 ∧ d.take 2 = ['7', '7'] then some (String.mk d.tail)
    else none

/-! ### Auxiliary lemmas: characters, stripping, rounding -/

theorem char_toNat_of_digit {c : Char} (h : isPyDigit c = true) :
    48 ≤ c.toNat ∧ c.toNat ≤ 57 := by
  unfold isPyDigit at h
  rw [Bool.and_eq_true, decide_eq_true_iff, decide_eq_true_iff] at h
  obtain ⟨h1, h2⟩ := h
  rw [Char.le_def, UInt32.le_def, BitVec.le_def] at h1 h2
  exact ⟨h1, h2⟩

theorem digit_mem {c : Char} (h : isPyDigit c = true) :
    c ∈ ['0', '1', '2', '3', '4', '5', '6', '7', '8', '9'] := by
  obtain ⟨h1, h2⟩ := char_toNat_of_digit h
  have hc : c = Char.ofNat c.toNat := (Char.ofNat_toNat c).symm
  interval_cases h : c.toNat <;> simp_all

theorem norm_fix_digit {c : Char} (h : isPyDigit c = true) :
    ru2en (pyUpper c) = c := by
  have := digit_mem h
  simp only [List.mem_cons, List.not_mem_nil, or_false] at this
  rcases this with rfl | rfl | rfl | rfl | rfl | rfl | rfl | rfl | rfl | rfl <;> decide

theorem digit_not_ws {c : Char} (h : isPyDigit c = true) : isPyWs c = false := by
  have := digit_mem h
  simp only [List.mem_cons, List.not_mem_nil, or_false] at this
  rcases this with rfl | rfl | rfl | rfl | rfl | rfl | rfl | rfl | rfl | rfl <;> decide

theorem digit_not_dir {c : Char} (h : isPyDigit c = true) :
    ¬(c = 'N' ∨ c = 'S') := by
  have := digit_mem h
  simp only [List.mem_cons, List.not_mem_nil, or_false] at this
  rcases this with rfl | rfl | rfl | rfl | rfl | rfl | rfl | rfl | rfl | rfl <;> decide

theorem norm_fix_ws {c : Char} (h : isPyWs c = true) : ru2en (pyUpper c) = c := by
  simp only [isPyWs, Bool.or_eq_true, decide_eq_true_iff] at h
  rcases h with ((((rfl | rfl) | rfl) | rfl) | rfl) | rfl <;> decide

theorem ns_not_ws {c : Char} (h : ru2en (pyUpper c) = 'N' ∨ ru2en (pyUpper c) = 'S') :
    isPyWs c = false := by
  by_contra hw
  rw [Bool.not_eq_false] at hw
  rw [norm_fix_ws hw] at h
  rcases h with rfl | rfl <;> simp [isPyWs] at hw

theorem ew_not_ws {c : Char} (h : ru2en (pyUpper c) = 'E' ∨ ru2en (pyUpper c) = 'W') :
    isPyWs c = false := by
  by_contra hw
  rw [Bool.not_eq_false] at hw
  rw [norm_fix_ws hw] at h
  rcases h with rfl | rfl <;> simp [isPyWs] at hw

theorem pyStrip_eq_self {cs : List Char} (h : ∀ c ∈ cs, isPyWs c = false) :
    pyStrip cs = cs := by
  unfold pyStrip
  have h1 : cs.dropWhile isPyWs = cs := by
    cases cs with
    | nil => rfl
    | cons a l => simp [List.dropWhile_cons, h a (List.mem_cons_self a l)]
  rw [h1]
  have h2 : cs.reverse.dropWhile isPyWs = cs.reverse := by
    cases hr : cs.reverse with
    | nil => rfl
    | cons a l =>
      have ha : a ∈ cs := by
        rw [← List.mem_reverse, hr]; exact List.mem_cons_self a l
      simp [List.dropWhile_cons, h a ha]
  rw [h2, List.reverse_reverse]

theorem qfloor_eq_floor (q : ℚ) : qfloor q = ⌊q⌋ := by
  rw [qfloor, Int.fdiv_eq_ediv _ (Int.ofNat_nonneg q.den), ← Rat.floor_def]

theorem roundHalfEven_le_int {q : ℚ} {n : ℤ} (h : q ≤ (n : ℚ)) :
    roundHalfEven q ≤ n := by
  have hfl : (⌊q⌋ : ℚ) ≤ q := Int.floor_le q
  have hfn : ⌊q⌋ ≤ n := by
    have := Int.floor_le_floor h
    simpa using this
  simp only [roundHalfEven, qfloor_eq_floor]
  split_ifs with h1 h2 h3
  · exact hfn
  · -- 1/2 < q - ⌊q⌋, result ⌊q⌋ + 1
    have : (⌊q⌋ : ℚ) + 1 / 2 < q := by linarith
    have hlt : (⌊q⌋ : ℚ) < (n : ℚ) := by linarith
    have : ⌊q⌋ < n := by exact_mod_cast hlt
    omega
  · exact hfn
  · -- tie q - ⌊q⌋ = 1/2 with odd floor, result ⌊q⌋ + 1
    have hr : (1 : ℚ) / 2 ≤ q - ⌊q⌋ := le_of_not_lt h1
    have hlt : (⌊q⌋ : ℚ) < (n : ℚ) := by linarith
    have : ⌊q⌋ < n := by exact_mod_cast hlt
    omega

theorem int_le_roundHalfEven {q : ℚ} {n : ℤ} (h : (n : ℚ) ≤ q) :
    n ≤ roundHalfEven q := by
  have hfn : n ≤ ⌊q⌋ := Int.le_floor.mpr h
  simp only [roundHalfEven, qfloor_eq_floor]
  split_ifs <;> omega

theorem pyRound6_le {x : ℚ} {n : ℤ} (h : x ≤ (n : ℚ)) : pyRound6 x ≤ (n : ℚ) := by
  unfold pyRound6
  have hb : roundHalfEven (x * 1000000) ≤ n * 1000000 := by
    apply roundHalfEven_le_int
    push_cast
    linarith
  rw [div_le_iff₀ (by norm_num : (0 : ℚ) < 1000000)]
  calc ((roundHalfEven (x * 1000000) : ℚ)) ≤ ((n * 1000000 : ℤ) : ℚ) := by exact_mod_cast hb
    _ = (n : ℚ) * 1000000 := by push_cast; ring

theorem le_pyRound6 {x : ℚ} {n : ℤ} (h : (n : ℚ) ≤ x) : (n : ℚ) ≤ pyRound6 x := by
  unfold pyRound6
  have hb : n * 1000000 ≤ roundHalfEven (x * 1000000) := by
    apply int_le_roundHalfEven
    push_cast
    linarith
  rw [le_div_iff₀ (by norm_num : (0 : ℚ) < 1000000)]
  calc (n : ℚ) * 1000000 = ((n * 1000000 : ℤ) : ℚ) := by push_cast; ring
    _ ≤ (roundHalfEven (x * 1000000) : ℚ) := by exact_mod_cast hb

namespace FlightParser

/-! ### Structure of the anchored coordinate match -/

theorem grabDigits_exact {n : Nat} {pre suf : List Char}
    (hlen : pre.length = n) (hdig : pre.all isPyDigit = true) :
    grabDigits n (pre ++ suf) = some (pre, suf) := by
  unfold grabDigits
  rw [List.take_left' hlen, List.drop_left' hlen]
  simp [hlen, hdig]

theorem all_take {l : List Char} {n : Nat} (h : l.all isPyDigit = true) :
    (l.take n).all isPyDigit = true := by
  rw [List.all_eq_true] at h ⊢
  exact fun x hx => h x (List.mem_of_mem_take hx)

/-- A `\d{4}` latitude alternative fails on a 6-digit latitude group: the
character after four digits is another digit, which `[NS]` rejects. -/
theorem latlonAlt_lat6_fails {lonLen : Nat} {latStr rest : List Char} {ns : Char}
    (hlen : latStr.length = 6) (hdig : latStr.all isPyDigit = true) :
    latlonAlt 4 lonLen (latStr ++ ns :: rest) = none := by
  have h4 : (latStr.take 4).length = 4 := by rw [List.length_take, hlen]; decide
  have hsplit : latStr ++ ns :: rest = latStr.take 4 ++ (latStr.drop 4 ++ ns :: rest) := by
    rw [← List.append_assoc, List.take_append_drop]
  rw [hsplit]
  unfold latlonAlt
  rw [grabDigits_exact h4 (all_take hdig)]
  have hdlen : (latStr.drop 4).length = 2 := by rw [List.length_drop, hlen]
  rcases hd : latStr.drop 4 with _ | ⟨a, tl⟩
  · rw [hd] at hdlen; simp at hdlen
  · have ha : isPyDigit a = true := by
      rw [List.all_eq_true] at hdig
      exact hdig a (List.mem_of_mem_drop (hd ▸ List.mem_cons_self a tl))
    simp [digit_not_dir ha]

/-- A `\d{5}` longitude alternative fails on a 7-digit longitude group:
after five digits two digits remain before the direction letter, so the
`$`-anchored tail cannot match. -/
theorem latlonAlt_lon7_fails {latLen : Nat} {latStr lonStr : List Char} {ns ew : Char}
    (hlat : latStr.length = latLen) (hlatd : latStr.all isPyDigit = true)
    (hlon : lonStr.length = 7) (hlond : lonStr.all isPyDigit = true) :
    latlonAlt latLen 5 (latStr ++ ns :: (lonStr ++ [ew])) = none := by
  unfold latlonAlt
  rw [grabDigits_exact hlat hlatd]
  by_cases hns : ns = 'N' ∨ ns = 'S'
  · have h5 : (lonStr.take 5).length = 5 := by rw [List.length_take, hlon]; decide
    have hsplit : lonStr ++ [ew] = lonStr.take 5 ++ (lonStr.drop 5 ++ [ew]) := by
      rw [← List.append_assoc, List.take_append_drop]
    rw [hsplit]
    have hdlen : (lonStr.drop 5).length = 2 := by rw [List.length_drop, hlon]
    rcases hd : lonStr.drop 5 with _ | ⟨a, tl⟩
    · rw [hd] at hdlen; simp at hdlen
    · rcases tl with _ | ⟨b, tl2⟩
      · rw [hd] at hdlen; simp at hdlen
      · rw [hd] at hdlen
        simp only [List.length_cons, List.length_nil] at hdlen
        have htl2 : tl2 = [] := by
          cases tl2 with
          | nil => rfl
          | cons x xs => simp at hdlen
        subst htl2
        simp [hns, grabDigits_exact h5 (all_take hlond), hd]
  · simp [hns]

theorem latlonAlt_exact {latLen lonLen : Nat} {latStr lonStr : List Char} {ns ew : Char}
    (hlat : latStr.length = latLen) (hlatd : latStr.all isPyDigit = true)
    (hlon : lonStr.length = lonLen) (hlond : lonStr.all isPyDigit = true)
    (hns : ns = 'N' ∨ ns = 'S') (hew : ew = 'E' ∨ ew = 'W') :
    latlonAlt latLen lonLen (latStr ++ ns :: (lonStr ++ [ew])) =
      some (latStr, ns, lonStr, ew) := by
  unfold latlonAlt
  rw [grabDigits_exact hlat hlatd]
  simp only [hns, if_true, Option.bind_eq_bind]
  have : grabDigits lonLen (lonStr ++ [ew]) = some (lonStr, [ew]) :=
    grabDigits_exact hlon hlond
  simp [hns, hew, this]

/-- On an already-normalized token with the strict shape, the anchored
regex match returns exactly the four groups. -/
theorem latlonMatch_exact {latStr lonStr : List Char} {ns ew : Char}
    (hlat : latStr.length = 4 ∨ latStr.length = 6)
    (hlatd : latStr.all isPyDigit = true)
    (hlon : lonStr.length = 5 ∨ lonStr.length = 7)
    (hlond : lonStr.all isPyDigit = true)
    (hns : ns = 'N' ∨ ns = 'S') (hew : ew = 'E' ∨ ew = 'W') :
    latlonMatch (latStr ++ ns :: (lonStr ++ [ew])) = some (latStr, ns, lonStr, ew) := by
  unfold latlonMatch
  rcases hlat with h4 | h6
  · rcases hlon with h5 | h7
    · rw [latlonAlt_exact h4 hlatd h5 hlond hns hew]
      rfl
    · rw [latlonAlt_lon7_fails h4 hlatd h7 hlond]
      rw [latlonAlt_exact h4 hlatd h7 hlond hns hew]
      rfl
  · rcases hlon with h5 | h7
    · rw [latlonAlt_lat6_fails h6 hlatd, latlonAlt_lat6_fails h6 hlatd]
      rw [latlonAlt_exact h6 hlatd h5 hlond hns hew]
      rfl
    · rw [latlonAlt_lat6_fails h6 hlatd, latlonAlt_lat6_fails h6 hlatd]
      rw [latlonAlt_lon7_fails h6 hlatd h7 hlond]
      rw [latlonAlt_exact h6 hlatd h7 hlond hns hew]
      rfl

end FlightParser

/-! ### Claims C1 and C2 -/

/-- For a raw token character that normalizes (upper-case, then the RU2EN
table) to a direction letter, the character is not whitespace and not a
digit, so stripping leaves it in place. -/
theorem strip_token {latStr lonStr : List Char} {ns ew : Char}
    (hlatd : latStr.all isPyDigit = true) (hlond : lonStr.all isPyDigit = true)
    (hns : isPyWs ns = false) (hew : isPyWs ew = false) :
    pyStrip (latStr ++ ns :: (lonStr ++ [ew])) = latStr ++ ns :: (lonStr ++ [ew]) := by
  apply pyStrip_eq_self
  intro c hc
  simp only [List.mem_append, List.mem_cons, List.mem_singleton,
    List.not_mem_nil, or_false] at hc
  rw [List.all_eq_true] at hlatd hlond
  rcases hc with h | rfl | h | rfl
  · exact digit_not_ws (hlatd c h)
  · exact hns
  · exact digit_not_ws (hlond c h)
  · exact hew

theorem map_norm_digits {l : List Char} (h : l.all isPyDigit = true) :
    (l.map pyUpper).map ru2en = l := by
  rw [List.map_map]
  have : l.map (ru2en ∘ pyUpper) = l.map id := by
    apply List.map_congr_left
    intro a ha
    rw [List.all_eq_true] at h
    exact norm_fix_digit (h a ha)
  rw [this, List.map_id]

/-- C1 (amended): a strict-format token whose decoded (signed, unrounded)
values lie inside the latitude/longitude ranges decodes to
`deg + min/60 + sec/3600`, sign-flipped for S/W, rounded to 6 decimals.
The two concrete examples of the claim are stated in the accompanying
witness.  (The unamended claim omitted the range condition; see the
counterexample.) -/
theorem FlightParser.parse_latlon_strict_format
    (latStr lonStr : List Char) (ns ew : Char) (lat lon : ℚ)
    (hlat : latStr.length = 4 ∨ latStr.length = 6)
    (hlatd : latStr.all isPyDigit = true)
    (hlon : lonStr.length = 5 ∨ lonStr.length = 7)
    (hlond : lonStr.all isPyDigit = true)
    (hns : ru2en (pyUpper ns) = 'N' ∨ ru2en (pyUpper ns) = 'S')
    (hew : ru2en (pyUpper ew) = 'E' ∨ ru2en (pyUpper ew) = 'W')
    (hlatv : lat = if ru2en (pyUpper ns) = 'S' then -latValue latStr else latValue latStr)
    (hlonv : lon = if ru2en (pyUpper ew) = 'W' then -lonValue lonStr else lonValue lonStr)
    (hr1 : -90 ≤ lat) (hr2 : lat ≤ 90) (hr3 : -180 ≤ lon) (hr4 : lon ≤ 180) :
    parse_latlon (.str (String.mk (latStr ++ ns :: (lonStr ++ [ew])))) =
      some (pyRound6 lat, pyRound6 lon) := by
  unfold parse_latlon
  dsimp only [String.toList]
  rw [strip_token hlatd hlond (ns_not_ws hns) (ew_not_ws hew)]
  have hmap : ((latStr ++ ns :: (lonStr ++ [ew])).map pyUpper).map ru2en
      = latStr ++ ru2en (pyUpper ns) :: (lonStr ++ [ru2en (pyUpper ew)]) := by
    simp only [List.map_append, List.map_cons, List.map_nil]
    rw [map_norm_digits hlatd, map_norm_digits hlond]
  rw [hmap, FlightParser.latlonMatch_exact hlat hlatd hlon hlond hns hew]
  dsimp only
  rw [← hlatv, ← hlonv]
  simp only [hr1, hr2, hr3, hr4, and_self, if_true]

/-- C1 counterexample: `"9100N00000E"` is a strict-format token, but the
source rejects it through the range check instead of returning the computed
`(91, 0)` pair that the unamended claim promises for every strict token. -/
theorem FlightParser.parse_latlon_overrange_counterexample :
    parse_latlon (.str "9100N00000E") = none := by decide

/-- C1 witness: the two concrete decodings named in the claim
(`55.15 = 1103/20`, `37.616667`, `68.601389`, `80.109722 = 40054861/500000`),
obtained by instantiating the amended theorem. -/
theorem FlightParser.parse_latlon_strict_format_witness :
    parse_latlon (.str (String.mk ['5','5','0','9','N','0','3','7','3','7','E']))
      = some (1103/20, 37616667/1000000) ∧
    parse_latlon (.str (String.mk ['6','8','3','6','0','5','N','0','8','0','0','6','3','5','E']))
      = some (68601389/1000000, 40054861/500000) := by
  constructor
  · have h := FlightParser.parse_latlon_strict_format
      ['5','5','0','9'] ['0','3','7','3','7'] 'N' 'E'
      (latValue ['5','5','0','9']) (lonValue ['0','3','7','3','7'])
      (by decide) (by decide) (by decide) (by decide) (by decide) (by decide)
      (by decide) (by decide) (by decide) (by decide) (by decide) (by decide)
    have h2 : parse_latlon (.str (String.mk ['5','5','0','9','N','0','3','7','3','7','E']))
        = some (pyRound6 (latValue ['5','5','0','9']), pyRound6 (lonValue ['0','3','7','3','7'])) := h
    rw [h2]; decide
  · have h := FlightParser.parse_latlon_strict_format
      ['6','8','3','6','0','5'] ['0','8','0','0','6','3','5'] 'N' 'E'
      (latValue ['6','8','3','6','0','5']) (lonValue ['0','8','0','0','6','3','5'])
      (by decide) (by decide) (by decide) (by decide) (by decide) (by decide)
      (by decide) (by decide) (by decide) (by decide) (by decide) (by decide)
    have h2 : parse_latlon (.str (String.mk ['6','8','3','6','0','5','N','0','8','0','0','6','3','5','E']))
        = some (pyRound6 (latValue ['6','8','3','6','0','5']), pyRound6 (lonValue ['0','8','0','0','6','3','5'])) := h
    rw [h2]; decide

theorem pyRound6_range {x : ℚ} {B : ℤ} (h1 : -(B : ℚ) ≤ x) (h2 : x ≤ (B : ℚ)) :
    -(B : ℚ) ≤ pyRound6 x ∧ pyRound6 x ≤ (B : ℚ) := by
  constructor
  · have := le_pyRound6 (show ((-B : ℤ) : ℚ) ≤ x by push_cast; linarith)
    push_cast at this
    linarith
  · exact pyRound6_le h2

/-- C2 (amended): `FlightParser.parse_latlon` is total (it is a Lean
function), maps non-string input to absent, and every present result obeys
`|lat| ≤ 90` and `|lon| ≤ 180`.  (The unamended claim extended this to
`TelegramParser._parse_coordinates`, which raises on pattern failures and
skips the range check; see the counterexample.) -/
theorem FlightParser.parse_latlon_total_in_range :
    parse_latlon PyVal.nonstr = none ∧
    ∀ v la lo, parse_latlon v = some (la, lo) →
      -90 ≤ la ∧ la ≤ 90 ∧ -180 ≤ lo ∧ lo ≤ 180 := by
  refine ⟨rfl, ?_⟩
  intro v la lo h
  cases v with
  | nonstr => simp [parse_latlon] at h
  | str s =>
    unfold parse_latlon at h
    dsimp only at h
    rcases hm : latlonMatch (((pyStrip s.toList).map pyUpper).map ru2en) with
      _ | ⟨latStr, ns, lonStr, ew⟩
    · rw [hm] at h; simp at h
    · rw [hm] at h
      dsimp only at h
      generalize hA : (if ns = 'S' then -latValue latStr else latValue latStr) = A at h
      generalize hB : (if ew = 'W' then -lonValue lonStr else lonValue lonStr) = B at h
      split_ifs at h with hrange
      · obtain ⟨hr1, hr2, hr3, hr4⟩ := hrange
        rw [Option.some.injEq, Prod.mk.injEq] at h
        obtain ⟨hla, hlo⟩ := h
        subst hla
        subst hlo
        have hbla := @pyRound6_range A 90 (by push_cast; linarith) (by push_cast; linarith)
        have hblo := @pyRound6_range B 180 (by push_cast; linarith) (by push_cast; linarith)
        push_cast at hbla hblo
        exact ⟨hbla.1, hbla.2, hblo.1, hblo.2⟩

/-- C2 counterexample: the telegram-parser decoder returns the out-of-range
coordinate `(99, 0)` for `"9900N00000E"` instead of the absent value the
claim requires for `|lat| > 90`. -/
theorem TelegramParser.parse_coordinates_overrange_counterexample :
    TelegramParser.parse_coordinates "9900N00000E" = .ok (99, 0) := by rfl

/-! ### Claims C6, C9, C10 -/

theorem ws_not_digit {c : Char} (h : isPyWs c = true) : isPyDigit c = false := by
  simp only [isPyWs, Bool.or_eq_true, decide_eq_true_iff] at h
  rcases h with ((((rfl | rfl) | rfl) | rfl) | rfl) | rfl <;> decide

theorem filter_digit_dropWhile_ws (l : List Char) :
    (l.dropWhile isPyWs).filter isPyDigit = l.filter isPyDigit := by
  induction l with
  | nil => rfl
  | cons a l ih =>
    by_cases ha : isPyWs a = true
    · rw [List.dropWhile_cons_of_pos ha, ih, List.filter_cons_of_neg]
      rw [ws_not_digit ha]
      simp
    · rw [List.dropWhile_cons_of_neg ha]

theorem filter_digit_pyStrip (l : List Char) :
    (pyStrip l).filter isPyDigit = l.filter isPyDigit := by
  unfold pyStrip
  rw [List.filter_reverse, filter_digit_dropWhile_ws, List.filter_reverse,
    List.reverse_reverse, filter_digit_dropWhile_ws]

theorem take2_head {d : List Char} (h : d.take 2 = ['7', '7']) :
    d.head? = some '7' := by
  rcases d with _ | ⟨a, t⟩ <;> simp_all

theorem take2_pair {d : List Char} (h : d.head? = some '7') :
    d.take 2 = ['7', '7'] ↔ d.tail.head? = some '7' := by
  rcases d with _ | ⟨a, _ | ⟨b, t⟩⟩ <;> simp_all

/-- C6: the source normalizer coincides with the claim's mapping on every
input, and every present output has the shape `7` followed by ten digits
(`^7\d{10}$`); combined with the claim's two concrete examples.  Totality
("never raises") holds by construction: the embedding is a total function
covering the `None`/non-string branches of the source. -/
theorem normalize_phone_number_spec :
    (∀ p, normalize_phone_number p = phoneSpec p) ∧
    (∀ p out, normalize_phone_number p = some out →
      out.toList.length = 11 ∧ out.toList.head? = some '7' ∧
        out.toList.all isPyDigit = true) ∧
    normalize_phone_number (.str "8 (912) 345-67-89") = some "79123456789" ∧
    normalize_phone_number (.str "123456789") = none := by
  have heq : ∀ p, normalize_phone_number p = phoneSpec p := by
    intro p
    cases p with
    | nonstr => rfl
    | str p =>
      unfold normalize_phone_number phoneSpec
      by_cases hp : p = ""
      · subst hp; rfl
      · simp only [hp, if_false]
        rw [filter_digit_pyStrip]
        generalize p.toList.filter isPyDigit = d
        by_cases h11 : d.length = 11
        · by_cases h8 : d.head? = some '8'
          · simp only [h11, h8]; simp
          · by_cases h7 : d.head? = some '7' <;>
              (first | (simp only [h11, h8, h7]; simp) | simp [h11, h8, h7])
        · by_cases h10 : d.length = 10
          · simp only [h11, h10]; simp
          · by_cases h12 : d.length = 12
            · by_cases h7 : d.head? = some '7'
              · by_cases h72 : d.tail.head? = some '7'
                · simp only [h11, h10, h12, h7, h72, (take2_pair h7).mpr h72]; simp
                · have hnt : ¬(d.take 2 = ['7', '7']) :=
                    fun hc => h72 ((take2_pair h7).mp hc)
                  simp only [h11, h10, h12, h7, h72, eq_false hnt]; simp
              · have hnt : ¬(d.take 2 = ['7', '7']) := fun hc => h7 (take2_head hc)
                simp only [h11, h10, h12, h7, eq_false hnt]; simp
            · simp only [h11, h10, h12]; simp
  refine ⟨heq, ?_, by decide, by decide⟩
  intro p out h
  rw [heq] at h
  cases p with
  | nonstr => simp [phoneSpec] at h
  | str p =>
    unfold phoneSpec at h
    dsimp only at h
    revert h
    generalize hd : p.toList.filter isPyDigit = d
    intro h
    have hall : ∀ x ∈ d, isPyDigit x = true := by
      intro x hx
      rw [← hd] at hx
      exact List.of_mem_filter hx
    split_ifs at h with h1 h2 h3 h4 <;> rw [Option.some.injEq] at h <;> subst h
    · obtain ⟨hlen, _⟩ := h1
      have htl : (String.mk ('7' :: d.tail)).toList = '7' :: d.tail := rfl
      refine ⟨?_, ?_, ?_⟩
      · rw [htl]; simp [List.length_tail, hlen]
      · rw [htl]; rfl
      · rw [htl, List.all_eq_true]
        intro x hx
        rcases List.mem_cons.mp hx with rfl | hx
        · decide
        · exact hall x (List.mem_of_mem_tail hx)
    · obtain ⟨hlen, hhd⟩ := h2
      have htl : (String.mk d).toList = d := rfl
      exact ⟨by rw [htl, hlen], by rw [htl]; exact hhd,
        by rw [htl, List.all_eq_true]; exact hall⟩
    · have htl : (String.mk ('7' :: d)).toList = '7' :: d := rfl
      refine ⟨by rw [htl]; simp [h3], by rw [htl]; rfl, ?_⟩
      rw [htl, List.all_eq_true]
      intro x hx
      rcases List.mem_cons.mp hx with rfl | hx
      · decide
      · exact hall x hx
    · obtain ⟨hlen, htk⟩ := h4
      have htl : (String.mk d.tail).toList = d.tail := rfl
      have hh7 : d.tail.head? = some '7' := (take2_pair (take2_head htk)).mp htk
      refine ⟨by rw [htl]; simp [List.length_tail, hlen], by rw [htl]; exact hh7, ?_⟩
      rw [htl, List.all_eq_true]
      intro x hx
      exact hall x (List.mem_of_mem_tail hx)

/-- C6 witness: the format invariant instantiated at the claim's example
input. -/
theorem normalize_phone_number_spec_witness :
    normalize_phone_number (.str "8 (912) 345-67-89") = some "79123456789" ∧
    ("79123456789" : String).toList.length = 11 ∧
    ("79123456789" : String).toList.head? = some '7' ∧
    ("79123456789" : String).toList.all isPyDigit = true := by
  have h := normalize_phone_number_spec.2.1 (.str "8 (912) 345-67-89") "79123456789"
    (by decide)
  exact ⟨by decide, h⟩

/-- C2 witness: the in-range invariant instantiated at a concrete decoded
token. -/
theorem FlightParser.parse_latlon_total_in_range_witness :
    -90 ≤ (1103 / 20 : ℚ) ∧ (1103 / 20 : ℚ) ≤ 90 ∧
      -180 ≤ (37616667 / 1000000 : ℚ) ∧ (37616667 / 1000000 : ℚ) ≤ 180 :=
  FlightParser.parse_latlon_total_in_range.2 (.str "5509N03737E")
    (1103 / 20) (37616667 / 1000000) (by decide)

/-- C9 counterexample: `TelegramParser._extract_date` performs no calendar
validation: `DOF/250230` (30 February) is mapped to the string
`"2025-02-30"` rather than the absent value the claim requires for an
invalid calendar date. -/
theorem TelegramParser.extract_date_invalid_counterexample :
    TelegramParser.extract_date "DOF/250230" = some "2025-02-30" ∧
    validYMD 2025 2 30 = false := by
  constructor <;> decide

/-- C9 (amended, restricted to `FlightParser.parse_date_yymmdd`): a six-digit
value maps to the calendar date `(2000+YY, MM, DD)` exactly when that triple
is a valid date and to absent otherwise; every produced date is valid
(invalid dates are rejected, never corrected); and the April-31 example of
the claim is rejected. -/
theorem FlightParser.parse_date_yymmdd_spec :
    (∀ t : List Char, t.length = 6 → t.all isPyDigit = true →
      FlightParser.parse_date_yymmdd (some (.s (String.mk t))) =
        (if validYMD (2000 + digitsToNat (t.take 2))
            (digitsToNat ((t.drop 2).take 2)) (digitsToNat ((t.drop 4).take 2)) then
          some ⟨2000 + digitsToNat (t.take 2), digitsToNat ((t.drop 2).take 2),
            digitsToNat ((t.drop 4).take 2)⟩
        else none)) ∧
    (∀ s d, FlightParser.parse_date_yymmdd s = some d →
      validYMD d.year d.month d.day = true) ∧
    FlightParser.parse_date_yymmdd (some (.s "250431")) = none := by
  refine ⟨?_, ?_, by decide⟩
  · intro t hlen hdig
    have hne : t ≠ [] := by intro hc; rw [hc] at hlen; simp at hlen
    have htr : (BVal.s (String.mk t)).truthy = true := by
      simp only [BVal.truthy, ne_eq, decide_eq_true_eq]
      intro hc
      exact hne (congrArg String.toList hc)
    have hstrip : pyStrip (String.mk t).toList = t := by
      apply pyStrip_eq_self
      intro c hc
      rw [List.all_eq_true] at hdig
      exact digit_not_ws (hdig c hc)
    unfold FlightParser.parse_date_yymmdd
    dsimp only
    rw [htr]
    simp only [Bool.true_eq_false, if_false, hstrip, hlen, hdig, and_self, if_true]
  · intro s d h
    unfold FlightParser.parse_date_yymmdd at h
    rcases s with _ | bv
    · simp at h
    · rcases bv with v | vs
      · dsimp only at h
        split_ifs at h with h1 h2 h3 <;>
          first
            | (rw [Option.some.injEq] at h; subst h; assumption)
            | (subst h; assumption)
            | simp at h
      · simp at h

/-- C9 witness: the validity invariant instantiated at a concrete parsed
date. -/
theorem FlightParser.parse_date_yymmdd_spec_witness :
    validYMD 2025 1 1 = true :=
  FlightParser.parse_date_yymmdd_spec.2.1 (some (.s "250101")) ⟨2025, 1, 1⟩ (by decide)

/-! ### Claim C8: parse_block -/

theorem charLe_iff {a b : Char} : a ≤ b ↔ a.toNat ≤ b.toNat := by
  rw [Char.le_def, UInt32.le_def, BitVec.le_def]; rfl

theorem toNat_ofNat_valid {n : Nat} (h : n < 55296) : (Char.ofNat n).toNat = n := by
  unfold Char.ofNat
  split_ifs with hv
  · rfl
  · exact absurd (Or.inl (by omega)) hv

theorem pyUpper_idem (c : Char) : pyUpper (pyUpper c) = pyUpper c := by
  by_cases h1 : 'a' ≤ c ∧ c ≤ 'z'
  · have hin : pyUpper c = Char.ofNat (c.toNat - 32) := by
      unfold pyUpper; rw [if_pos h1]
    have hb1 : 97 ≤ c.toNat := by
      have h := charLe_iff.mp h1.1
      rwa [show ('a' : Char).toNat = 97 from rfl] at h
    have hb2 : c.toNat ≤ 122 := by
      have h := charLe_iff.mp h1.2
      rwa [show ('z' : Char).toNat = 122 from rfl] at h
    have hd : (Char.ofNat (c.toNat - 32)).toNat = c.toNat - 32 :=
      toNat_ofNat_valid (by omega)
    rw [hin]
    unfold pyUpper
    rw [if_neg, if_neg, if_neg]
    · intro hc
      have h5 := congrArg Char.toNat hc
      rw [hd, show ('ё' : Char).toNat = 1105 from rfl] at h5
      omega
    · intro hc
      have h5 := charLe_iff.mp hc.1
      rw [hd, show ('а' : Char).toNat = 1072 from rfl] at h5
      omega
    · intro hc
      have h5 := charLe_iff.mp hc.1
      rw [hd, show ('a' : Char).toNat = 97 from rfl] at h5
      omega
  · by_cases h2 : 'а' ≤ c ∧ c ≤ 'я'
    · have hin : pyUpper c = Char.ofNat (c.toNat - 32) := by
        unfold pyUpper; rw [if_neg h1, if_pos h2]
      have hb1 : 1072 ≤ c.toNat := by
        have h := charLe_iff.mp h2.1
        rwa [show ('а' : Char).toNat = 1072 from rfl] at h
      have hb2 : c.toNat ≤ 1103 := by
        have h := charLe_iff.mp h2.2
        rwa [show ('я' : Char).toNat = 1103 from rfl] at h
      have hd : (Char.ofNat (c.toNat - 32)).toNat = c.toNat - 32 :=
        toNat_ofNat_valid (by omega)
      rw [hin]
      unfold pyUpper
      rw [if_neg, if_neg, if_neg]
      · intro hc
        have h5 := congrArg Char.toNat hc
        rw [hd, show ('ё' : Char).toNat = 1105 from rfl] at h5
        omega
      · intro hc
        have h5 := charLe_iff.mp hc.1
        rw [hd, show ('а' : Char).toNat = 1072 from rfl] at h5
        omega
      · intro hc
        have h5 := charLe_iff.mp hc.2
        rw [hd, show ('z' : Char).toNat = 122 from rfl] at h5
        omega
    · by_cases h3 : c = 'ё'
      · subst h3
        decide
      · have hin : pyUpper c = c := by
          unfold pyUpper; rw [if_neg h1, if_neg h2, if_neg h3]
        rw [hin]
        exact hin

theorem map_pyUpper_idem (l : List Char) :
    (l.map pyUpper).map pyUpper = l.map pyUpper := by
  rw [List.map_map]
  exact List.map_congr_left fun a _ => pyUpper_idem a

theorem dropWhile_head_not {p : Char → Bool} {l : List Char} {a : Char} {t : List Char}
    (h : l.dropWhile p = a :: t) : p a = false := by
  induction l with
  | nil => simp at h
  | cons x xs ih =>
    rw [List.dropWhile_cons] at h
    split_ifs at h with hx
    · exact ih h
    · injection h with h1 _
      subst h1
      rw [Bool.not_eq_true] at hx
      exact hx

theorem pyRstripSlash_no_trailing (l : List Char) :
    (pyRstripSlash l).getLast? ≠ some '/' := by
  unfold pyRstripSlash
  rcases hd : l.reverse.dropWhile (fun c => c = '/') with _ | ⟨a, t⟩
  · simp
  · rw [List.getLast?_reverse]
    have ha := dropWhile_head_not hd
    simp only [List.head?_cons, ne_eq, Option.some.injEq]
    intro hc
    subst hc
    simp at ha

namespace FlightParser

theorem dashParse_key_upper {line : List Char} {k v : String}
    (h : dashParse line = some (k, v)) : k.toList.map pyUpper = k.toList := by
  unfold dashParse at h
  rcases line with _ | ⟨c, rest⟩
  · simp at h
  · dsimp only at h
    by_cases hc : c = '-'
    · rw [if_pos hc] at h
      by_cases h2 : rest.takeWhile isKeyChar = []
      · rw [if_pos h2] at h
        simp at h
      · rw [if_neg h2] at h
        have hk : String.mk ((rest.takeWhile isKeyChar).map pyUpper) = k :=
          congrArg Prod.fst (Option.some_injective _ h)
        rw [← hk]
        exact map_pyUpper_idem _
    · rw [if_neg hc] at h
      simp at h

theorem linePairs_key_upper {line : List Char} {k : String} {v : String}
    (h : (k, v) ∈ linePairs line) : k.toList.map pyUpper = k.toList := by
  unfold linePairs at h
  dsimp only at h
  split_ifs at h with h1
  · simp at h
  · rcases hd : dashParse (pyStrip line) with _ | kv
    · rw [hd] at h
      dsimp only at h
      unfold tokenPairs at h
      rcases List.mem_filterMap.mp h with ⟨tok, _, htok⟩
      by_cases h2 : '/' ∈ tok
      · rw [if_pos h2] at htok
        have hk : String.mk (((tok.takeWhile fun c => c ≠ '/').map pyUpper)) = k :=
          congrArg Prod.fst (Option.some_injective _ htok)
        rw [← hk]
        exact map_pyUpper_idem _
      · rw [if_neg h2] at htok
        simp at htok
    · rw [hd] at h
      dsimp only at h
      have hkv := List.mem_singleton.mp h
      rw [← hkv] at hd
      exact dashParse_key_upper hd

theorem blockPairs_key_upper {text : PyVal} {k v : String}
    (h : (k, v) ∈ blockPairs text) : k.toList.map pyUpper = k.toList := by
  unfold blockPairs at h
  rcases text with s | _
  · dsimp only at h
    split_ifs at h with h1 h2
    · simp at h
    all_goals
      rcases List.mem_flatten.mp h with ⟨lp, hlp, hmem⟩
    all_goals
      rcases List.mem_map.mp hlp with ⟨line, _, rfl⟩
    all_goals
      exact linePairs_key_upper hmem
  · simp at h

theorem mem_keysOf_iff (pairs : List (String × String)) (k : String) :
    k ∈ keysOf pairs ↔ valuesFor pairs k ≠ [] := by
  induction pairs with
  | nil => simp [keysOf, valuesFor]
  | cons hd t ih =>
    obtain ⟨k1, v⟩ := hd
    by_cases hk : k1 = k
    · subst hk
      simp [keysOf, valuesFor, List.filter_cons]
    · unfold keysOf valuesFor
      rw [List.filter_cons]
      simp only [decide_eq_true_eq, hk, if_false]
      rw [List.mem_cons]
      constructor
      · intro hc
        rcases hc with hc | hc
        · exact absurd hc.symm hk
        · exact ih.mp (List.mem_of_mem_filter hc)
      · intro hc
        right
        rw [List.mem_filter]
        refine ⟨ih.mpr hc, ?_⟩
        have hkk : k ≠ k1 := fun hck => hk hck.symm
        simpa using hkk

theorem find?_keyed_map (pairs : List (String × String)) (k : String)
    (l : List String) :
    (l.map fun k2 => (k2, collapse (valuesFor pairs k2))).find? (fun kv => kv.1 = k)
      = if k ∈ l then some (k, collapse (valuesFor pairs k)) else none := by
  induction l with
  | nil => rfl
  | cons a t ih =>
    rw [List.map_cons]
    by_cases ha : a = k
    · subst ha
      rw [List.find?_cons_of_pos _ (by simp), if_pos (List.mem_cons_self a t)]
    · rw [List.find?_cons_of_neg _ (by simpa using ha), ih]
      by_cases hm : k ∈ t
      · rw [if_pos hm, if_pos (List.mem_cons_of_mem a hm)]
      · rw [if_neg hm, if_neg ?_]
        intro hc
        rcases List.mem_cons.mp hc with hc | hc
        · exact ha hc.symm
        · exact hm hc

/-- C8 (amended): every key of a parsed block is uppercase-stable; looking a
key up returns its single value as a string when it occurred once and the
ordered list of its values (in input order) when it occurred several times,
and absent when it never occurred; and values produced by the `KEY/value`
token arm never retain a trailing `/`.  (The unamended claim asserted the
trailing-slash stripping for every stored value; `-KEY value` lines only
strip whitespace — see the counterexample.) -/
theorem parse_block_spec :
    (∀ text kv, kv ∈ parse_block text → kv.1.toList.map pyUpper = kv.1.toList) ∧
    (∀ text k, dget (parse_block text) k =
      if valuesFor (blockPairs text) k = [] then none
      else some (collapse (valuesFor (blockPairs text) k))) ∧
    (∀ v, (tokenValue v).toList.getLast? ≠ some '/') := by
  refine ⟨?_, ?_, ?_⟩
  · intro text kv hkv
    unfold parse_block at hkv
    rcases List.mem_map.mp hkv with ⟨k, hk, rfl⟩
    rcases (mem_keysOf_iff (blockPairs text) k).mp hk with hne
    rcases hv : valuesFor (blockPairs text) k with _ | ⟨v, _⟩
    · exact absurd hv hne
    · have hvmem : v ∈ valuesFor (blockPairs text) k := by rw [hv]; exact List.mem_cons_self v _
      unfold valuesFor at hvmem
      rcases List.mem_map.mp hvmem with ⟨⟨k2, v2⟩, hkv2, hv2⟩
      have hk2 := List.mem_filter.mp hkv2
      have hkeq : k2 = k := by simpa using hk2.2
      subst hkeq
      exact blockPairs_key_upper hk2.1
  · intro text k
    unfold parse_block dget
    rw [find?_keyed_map]
    by_cases hk : k ∈ keysOf (blockPairs text)
    · rw [if_pos hk, if_neg ((mem_keysOf_iff (blockPairs text) k).mp hk)]
      rfl
    · rw [if_neg hk]
      have hv : valuesFor (blockPairs text) k = [] := by
        by_contra hne
        exact hk ((mem_keysOf_iff (blockPairs text) k).mpr hne)
      rw [if_pos hv]
      rfl
  · intro v
    exact pyRstripSlash_no_trailing (pyStrip v)

/-- C8 counterexample: a `-KEY value` line stores its value with the
trailing `/` intact (`parse_block("-TITLE ABC/")["TITLE"] == "ABC/"`),
refuting "every stored value has any trailing '/' stripped". -/
theorem parse_block_dash_retains_slash :
    dget (parse_block (.str "-TITLE ABC/")) "TITLE" = some (.s "ABC/") ∧
    ("ABC/" : String).toList.getLast? = some '/' := by
  constructor <;> decide

/-- C8 witness: the uppercase-key invariant instantiated on a concrete
block. -/
theorem parse_block_spec_witness :
    ("SID" : String).toList.map pyUpper = ("SID" : String).toList :=
  parse_block_spec.1 (.str "sid/12") ("SID", .s "12") (by decide)

end FlightParser

/-! ### Claim C4: parse_zone priority order -/

namespace FlightParser

/-- C4: zone extraction tries the recognizers in the fixed priority order
circle, polygon, named, and returns the first match, else the unknown zone.
Conjuncts: the claim's concrete circle example; a circle match always wins;
the polygon branch wins exactly when the circle pattern fails and at least
one coordinate token decodes; otherwise the named recognizer decides, which
looks the designator up in the zone-definitions dataset and embeds its
sub-zone list when found; and `unknown` when no recognizer matches. -/
theorem parse_zone_priority :
    (parse_zone [] (.str "(SHR-ZZZZZ /ZONA R0,7 5509N03737E/)")
      = .circle (some (1103 / 20)) (some (37616667 / 1000000)) (7 / 10)) ∧
    (∀ zs s, circleMatch s.toList ≠ none →
      ∃ la lo r, parse_zone zs (.str s) = .circle la lo r) ∧
    (∀ zs s, circleMatch s.toList = none → polygonCoords s.toList ≠ [] →
      parse_zone zs (.str s) = .polygon (polygonCoords s.toList)) ∧
    (∀ zs s, circleMatch s.toList = none → polygonCoords s.toList = [] →
      parse_zone zs (.str s) = zoneNamed zs s.toList) ∧
    (∀ zs cs, reSearch namedPat cs = none → zoneNamed zs cs = .unknown) ∧
    (∀ zs cs caps m r, reSearch namedPat cs = some (caps, m, r) →
      zoneNamed zs cs =
        match zs.find? fun z => z.rvmname = some (namedName caps) with
        | some zd => .named (namedName caps) (some (zd.zones.getD []))
        | none => .named (namedName caps) none) := by
  refine ⟨by decide, ?_, ?_, ?_, ?_, ?_⟩
  · intro zs s hc
    rcases hm : circleMatch s.toList with _ | ⟨caps, m, r⟩
    · exact absurd hm hc
    · unfold parse_zone
      dsimp only
      rw [hm]
      dsimp only
      rcases parse_latlon (.str (String.mk ((getCap caps 3).getD []))) with _ | ⟨la, lo⟩
      · exact ⟨none, none, parseRadius ((getCap caps 2).getD []), rfl⟩
      · exact ⟨some la, some lo, parseRadius ((getCap caps 2).getD []), rfl⟩
  · intro zs s hc hp
    unfold parse_zone
    dsimp only
    rw [hc, if_pos hp]
  · intro zs s hc hp
    unfold parse_zone
    dsimp only
    rw [hc, if_neg (by simpa using hp)]
  · intro zs cs hn
    unfold zoneNamed
    rw [hn]
  · intro zs cs caps m r hn
    unfold zoneNamed
    rw [hn]

/-- C4 witness: the priority conjuncts instantiated on concrete texts — a
polygon-only message, a named-only message (designator absent from the
dataset and present in it), and a message no recognizer matches. -/
theorem parse_zone_priority_witness :
    parse_zone [] (.str "ZONA 5509N03737E 5510N03738E")
      = .polygon (polygonCoords "ZONA 5509N03737E 5510N03738E".toList) ∧
    parse_zone [] (.str "go /ZONA MR11/ on")
      = zoneNamed [] "go /ZONA MR11/ on".toList ∧
    zoneNamed [] "nothing".toList = .unknown := by
  refine ⟨?_, ?_, ?_⟩
  · exact parse_zone_priority.2.2.1 [] "ZONA 5509N03737E 5510N03738E"
      (by decide) (by decide)
  · exact parse_zone_priority.2.2.2.1 [] "go /ZONA MR11/ on" (by decide) (by decide)
  · exact parse_zone_priority.2.2.2.2.1 [] "nothing".toList (by decide)

end FlightParser

/-! ### Claim C7: the radial fallback -/

namespace FlightParser

theorem searchDirs_eq_findSome (locate : ℚ → ℚ → Option Region) (lat lon δ : ℚ)
    (ds : List (ℤ × ℤ)) :
    searchDirs locate lat lon δ ds
      = ds.findSome? fun d => locate (lat + d.1 * δ) (lon + d.2 * δ) := by
  induction ds with
  | nil => rfl
  | cons d rest ih =>
    rw [List.findSome?_cons]
    unfold searchDirs
    rw [ih]
    cases locate (lat + d.1 * δ) (lon + d.2 * δ) <;> rfl

theorem findSome?_append_region (l1 l2 : List (ℚ × ℚ)) (g : ℚ × ℚ → Option Region) :
    (l1 ++ l2).findSome? g
      = match l1.findSome? g with
        | some r => some r
        | none => l2.findSome? g := by
  induction l1 with
  | nil => simp
  | cons a rest ih =>
    rw [List.cons_append, List.findSome?_cons, List.findSome?_cons]
    cases g a
    · exact ih
    · rfl

theorem searchDeltas_eq_findSome (locate : ℚ → ℚ → Option Region) (lat lon : ℚ)
    (dl : List ℚ) :
    searchDeltas locate lat lon dl
      = ((dl.map fun δ => directions.map fun d => (lat + d.1 * δ, lon + d.2 * δ)).flatten).findSome?
          fun q => locate q.1 q.2 := by
  induction dl with
  | nil => rfl
  | cons δ rest ih =>
    rw [List.map_cons, List.flatten_cons, findSome?_append_region]
    unfold searchDeltas
    rw [ih, searchDirs_eq_findSome]
    have hmap : (directions.map fun d => (lat + d.1 * δ, lon + d.2 * δ)).findSome?
        (fun q => locate q.1 q.2)
        = directions.findSome? fun d => locate (lat + d.1 * δ) (lon + d.2 * δ) := by
      induction directions with
      | nil => rfl
      | cons d ds ihd =>
        rw [List.map_cons, List.findSome?_cons, List.findSome?_cons, ihd]
    rw [hmap]

/-- C7 (amended): with no locator the fallback is absent; with a locator it
probes, for each radius of the schedule 0.01, 0.05, 0.1, 0.15, 0.2, 0.25,
0.5, 1, 2, 3, 5 degrees, the 8 compass offsets of the anchor point in
source order, returning the first region any probe finds, and absent when
no probe hits or no anchor exists.  The anchor is the departure coordinate
when both components are truthy in Python's sense (present AND nonzero),
else the arrival coordinate under the same test, else nothing — "present"
alone is not enough, see the counterexample. -/
theorem search_region_in_vicinity_spec :
    (∀ dla dlo ala alo,
      search_region_in_vicinity none dla dlo ala alo = none) ∧
    (∀ (locate : ℚ → ℚ → Option Region) dla dlo ala alo,
      search_region_in_vicinity (some locate) dla dlo ala alo
        = (anchorOf dla dlo ala alo).bind fun p =>
            (probeList p.1 p.2).findSome? fun q => locate q.1 q.2) := by
  refine ⟨fun _ _ _ _ => rfl, ?_⟩
  intro locate dla dlo ala alo
  unfold search_region_in_vicinity
  rcases anchorOf dla dlo ala alo with _ | ⟨lat, lon⟩
  · rfl
  · rw [Option.some_bind]
    exact searchDeltas_eq_findSome locate lat lon deltas

/-- C7 counterexample: an everywhere-successful locator, a present
departure coordinate `(0, 37.5)` (latitude exactly zero) and no arrival
coordinate.  The claim's probe sequence finds a region at the very first
probe, but the source treats the zero latitude as falsy, selects no anchor,
and returns absent. -/
theorem search_region_in_vicinity_zero_counterexample :
    search_region_in_vicinity (some fun _ _ => some ⟨7, "r"⟩)
        (some 0) (some (75/2)) none none = none ∧
    (probeList 0 (75/2)).findSome? (fun q => (fun _ _ => some (⟨7, "r"⟩ : Region)) q.1 q.2)
      = some ⟨7, "r"⟩ := by
  constructor
  · rfl
  · rfl

/-- C7 witness: the probe-list characterisation instantiated with a
locator that recognises only the probe point at radius 0.15 in direction
(-1, 0), demonstrating the ordered radial search concretely. -/
theorem search_region_in_vicinity_spec_witness :
    search_region_in_vicinity
        (some fun la lo => if la = 10 - 3/20 ∧ lo = 20 then some ⟨3, "x"⟩ else none)
        (some 10) (some 20) none none
      = some ⟨3, "x"⟩ := by
  have h := search_region_in_vicinity_spec.2
    (fun la lo => if la = 10 - 3/20 ∧ lo = 20 then some ⟨3, "x"⟩ else none)
    (some 10) (some 20) none none
  rw [h]
  decide

end FlightParser

/-! ### Claims C3 and C5: the zone-fallback locator key and durations -/

namespace FlightParser

/-- C3 (code bug): the zone-fallback locator key is written in decimal
degrees with a decimal point (`"055.15N0037.62E"`), which the strict
digit-only pattern of `parse_latlon` can never match; decoding the
synthesized token therefore always fails (instead of reproducing the point
within 1e-4 degrees as the spec intends), and the zone-derived coordinates
in the assembled record stay absent. -/
theorem encode_zone_key_never_decodes :
    parse_latlon (.str "5509N03737E") = some (1103 / 20, 37616667 / 1000000) ∧
    encodeZoneKey (1103 / 20) (37616667 / 1000000) = "055.15N0037.62E" ∧
    parse_latlon (.str "055.15N0037.62E") = none ∧
    (parse_row [] [] none "c" (.str "/ZONA R0,7 5509N03737E/") .nonstr .nonstr).map
        (fun r => (r.zone, r.dep.lat, r.dep.lon, r.arr.lat, r.arr.lon))
      = .ok (.circle (some (1103 / 20)) (some (37616667 / 1000000)) (7 / 10),
          none, none, none, none) := by
  refine ⟨by decide, by decide, by decide, by decide⟩

/-- C5 counterexample: an arrival date (`ADA 250101`) earlier than the
departure date (`ADD 250110`) leaves `duration_min` negative — both
timestamps are present, yet the single-day rollover cannot compensate nine
days. -/
theorem parse_row_negative_duration_counterexample :
    (parse_row [] [] none "c" (.str "(SHR-ZZZZZ)")
        (.str "-ADD 250110\n-ATD 0600") (.str "-ADA 250101\n-ATA 0700")).map
      (fun r => (r.start_ts.isSome, r.end_ts.isSome, r.duration_min))
      = .ok (true, true, some (-11460)) ∧ (-11460 : ℤ) < 0 := by
  refine ⟨by decide, by decide⟩

theorem exc_bind_ok {α β : Type} {x : Except String α} {f : α → Except String β} {b : β}
    (h : x >>= f = .ok b) : ∃ a, x = .ok a ∧ f a = .ok b := by
  cases x with
  | error e => exact absurd h (by simp [Bind.bind, Except.bind])
  | ok a => exact ⟨a, rfl, h⟩

theorem parse_time_hhmm_bounds {v : Option BVal} {t : Nat × Nat}
    (h : parse_time_hhmm v = some t) : t.1 ≤ 23 ∧ t.2 ≤ 59 := by
  unfold parse_time_hhmm at h
  rcases v with _ | bv
  · simp at h
  · rcases bv with x | vs
    · dsimp only at h
      split_ifs at h with h1 h2
      all_goals first
        | (rw [Option.some.injEq] at h; push_neg at h2; subst h; exact ⟨h2.1, h2.2⟩)
        | (push_neg at h2; subst h; exact ⟨h2.1, h2.2⟩)
        | exact Option.noConfusion h
    · simp at h

/-- C5 (amended): whenever `parse_row` produces a record with a duration
(hence both timestamps), the duration is nonnegative provided the arrival
date `ADA` is not an earlier calendar day than the departure date `ADD` —
the one-day midnight rollover covers exactly that case; an `ADA` before
`ADD` yields a negative duration (see the counterexample). -/
theorem parse_row_duration_nonneg
    (aer : List (String × Aerodrome)) (zones : List ZoneDef)
    (locOpt : Option (ℚ → ℚ → Option Region)) (cn : String)
    (shr dep_text arr_text : PyVal)
    (hdate : ∀ dd da, parse_date_yymmdd (dget (parse_block dep_text) "ADD") = some dd →
      parse_date_yymmdd (dget (parse_block arr_text) "ADA") = some da →
      dayNumber dd ≤ dayNumber da) :
    ∀ d, (parse_row aer zones locOpt cn shr dep_text arr_text).map
        FlightData.duration_min = .ok (some d) → 0 ≤ d := by
  intro d hmap
  rcases hpr : parse_row aer zones locOpt cn shr dep_text arr_text with e | rec
  · rw [hpr] at hmap
    exact absurd hmap (by simp [Except.map])
  · rw [hpr] at hmap
    have hdur : rec.duration_min = some d := by
      simpa [Except.map] using hmap
    -- invert the do-chain of parse_row to expose the duration expression
    unfold parse_row at hpr
    rcases shr with s | _
    swap
    · exact absurd hpr (by simp [Bind.bind, Except.bind, throw, throwThe, MonadExcept.throw])
    dsimp only at hpr
    obtain ⟨a1, _, hpr⟩ := exc_bind_ok hpr
    obtain ⟨a2, _, hpr⟩ := exc_bind_ok hpr
    obtain ⟨a3, _, hpr⟩ := exc_bind_ok hpr
    obtain ⟨a4, _, hpr⟩ := exc_bind_ok hpr
    obtain ⟨a5, _, hpr⟩ := exc_bind_ok hpr
    obtain ⟨a6, _, hpr⟩ := exc_bind_ok hpr
    have hrec : (Except.ok _ : Except String FlightData) = Except.ok rec := hpr
    rw [Except.ok.injEq] at hrec
    have hfield := congrArg FlightData.duration_min hrec
    dsimp only at hfield
    rw [← hfield] at hdur
    clear hpr hrec hfield hmap
    -- now hdur equates the pure duration expression with `some d`
    rcases hdd : parse_date_yymmdd (dget (parse_block dep_text) "ADD") with _ | dd <;>
      rw [hdd] at hdur
    · rcases hda : parse_date_yymmdd (dget (parse_block arr_text) "ADA") with _ | da <;>
        rw [hda] at hdur <;>
        rcases parse_time_hhmm (dget (parse_block arr_text) "ATA") with _ | t2 <;>
        simp at hdur
    · rcases ht1 : parse_time_hhmm (dget (parse_block dep_text) "ATD") with _ | t1 <;>
        rw [ht1] at hdur
      · rcases hda : parse_date_yymmdd (dget (parse_block arr_text) "ADA") with _ | da <;>
          rw [hda] at hdur <;>
          rcases parse_time_hhmm (dget (parse_block arr_text) "ATA") with _ | t2 <;>
          simp at hdur
      · rcases hda : parse_date_yymmdd (dget (parse_block arr_text) "ADA") with _ | da <;>
          rw [hda] at hdur
        · rcases parse_time_hhmm (dget (parse_block arr_text) "ATA") with _ | t2 <;>
            simp at hdur
        · rcases ht2 : parse_time_hhmm (dget (parse_block arr_text) "ATA") with _ | t2 <;>
            rw [ht2] at hdur
          · simp at hdur
          · have hday := hdate dd da hdd hda
            obtain ⟨hb1, hb2⟩ := parse_time_hhmm_bounds ht1
            dsimp only at hdur
            by_cases hlt : tsMinutes da t2 < tsMinutes dd t1
            · rw [if_pos hlt] at hdur
              rw [Option.some.injEq] at hdur
              subst hdur
              unfold tsMinutes at hlt ⊢
              have hdd1 : dayNumber dd * 1440 + t1.1 * 60 + t1.2
                  ≤ dayNumber dd * 1440 + 1439 := by omega
              have : dayNumber dd * 1440 ≤ dayNumber da * 1440 := by
                exact Nat.mul_le_mul_right 1440 hday
              omega
            · rw [if_neg hlt] at hdur
              rw [Option.some.injEq] at hdur
              subst hdur
              push_neg at hlt
              omega

/-- C5 witness: the claim's midnight-rollover example `ATD 2330`, `ATA
0015` on the same nominal date, instantiating the nonnegativity theorem at
`duration_min = 45`. -/
theorem parse_row_duration_nonneg_witness : (0 : ℤ) ≤ 45 := by
  refine parse_row_duration_nonneg [] [] none "c" (.str "(SHR-ZZZZZ)")
    (.str "-ADD 250101\n-ATD 2330") (.str "-ADA 250101\n-ATA 0015") ?_ 45 (by decide)
  intro dd da h1 h2
  have he1 : parse_date_yymmdd (dget (parse_block (.str "-ADD 250101\n-ATD 2330")) "ADD")
      = some ⟨2025, 1, 1⟩ := by decide
  have he2 : parse_date_yymmdd (dget (parse_block (.str "-ADA 250101\n-ATA 0015")) "ADA")
      = some ⟨2025, 1, 1⟩ := by decide
  rw [he1, Option.some.injEq] at h1
  rw [he2, Option.some.injEq] at h2
  subst h1
  subst h2
  exact Nat.le_refl _

end FlightParser

/-- C10: `calculate_duration` returns the integer 0 whenever either datetime
argument is missing — not an absent value — and also returns 0 for a
zero-length flight, so the two cases are indistinguishable to a caller. -/
theorem TelegramParser.calculate_duration_missing_is_zero :
    (∀ a, TelegramParser.calculate_duration none a = 0) ∧
    (∀ d, TelegramParser.calculate_duration d none = 0) ∧
    TelegramParser.calculate_duration (some 0) (some 0) = 0 := by
  refine ⟨fun a => ?_, fun d => ?_, by decide⟩
  · cases a <;> rfl
  · cases d <;> rfl

end BVS
